import Mathlib

set_option maxHeartbeats 1000000

namespace WeatherApp

/-- Calendar date as stored in the `date` column of `weather_data`
(a `datetime.date` in the source). -/
structure Date where
  year : Nat
  month : Nat
  day : Nat
deriving DecidableEq, Repr

/-- Row of the `weather_data` table (the `WeatherData` model of
`app/models.py`).  The surrogate `id` and the `created_at` column are
omitted: no behaviour under study reads them. -/
structure WeatherData where
  station_id : String
  date : Date
  max_temp : Int
  min_temp : Int
  precipitation : Int
deriving DecidableEq, Repr

/-- Characters removed by Python `str.strip()` (ASCII whitespace). -/
def pyWhitespace (c : Char) : Bool :=
  c = ' ' || c = '\t' || c = '\n' || c = '\r' || c = '\x0b' || c = '\x0c'

/-- Python `str.strip()`. -/
def pyStrip (cs : List Char) : List Char :=
  ((cs.dropWhile pyWhitespace).reverse.dropWhile pyWhitespace).reverse

/-- Python `str.split('\t')`: every tab separates two (possibly empty)
fields, so the result is always nonempty. -/
def splitTab : List Char → List (List Char)
  | [] => [[]]
  | c :: rest =>
    if c = '\t' then [] :: splitTab rest
    else
      match splitTab rest with
      | [] => [[c]]
      | f :: fs => (c :: f) :: fs

/-- Value of an ASCII digit character. -/
def digitVal (c : Char) : Nat := c.toNat - 48

/-- Tail of a Python integer literal after its first digit: further digits,
with single underscores allowed between digits (`int("1_0") = 10`). -/
def digitsTail : List Char → Bool
  | [] => true
  | c :: rest =>
    if c = '_' then
      match rest with
      | c2 :: rest2 => c2.isDigit && digitsTail rest2
      | [] => false
    else c.isDigit && digitsTail rest

/-- Nonempty digit run with optional single underscores between digits. -/
def decDigits : List Char → Bool
  | [] => false
  | c :: rest => c.isDigit && digitsTail rest

/-- Base-10 value of a digit list. -/
def digitsVal (cs : List Char) : Nat :=
  cs.foldl (fun n c => 10 * n + digitVal c) 0

/-- Python `int(s)` on an already-stripped ASCII string: optional sign,
then a nonempty digit run (underscores between digits allowed). -/
def pyInt (cs : List Char) : Option Int :=
  match cs with
  | [] => none
  | c :: rest =>
    if c = '+' then
      if decDigits rest then some (digitsVal (rest.filter (· != '_')) : Int) else none
    else if c = '-' then
      if decDigits rest then some (-(digitsVal (rest.filter (· != '_')) : Int)) else none
    else if decDigits (c :: rest) then some (digitsVal ((c :: rest).filter (· != '_')) : Int)
    else none

/-- Proleptic-Gregorian leap-year rule used by `datetime`. -/
def isLeapYear (y : Nat) : Bool :=
  y % 4 == 0 && (y % 100 != 0 || y % 400 == 0)

/-- Length of a month as `datetime` counts it. -/
def daysInMonth (y m : Nat) : Nat :=
  if m = 2 then (if isLeapYear y then 29 else 28)
  else if m = 4 || m = 6 || m = 9 || m = 11 then 30
  else 31

/-- Range checks of the `datetime.date` constructor. -/
def validDate (y m d : Nat) : Bool :=
  decide (1 ≤ y ∧ y ≤ 9999 ∧ 1 ≤ m ∧ m ≤ 12 ∧ 1 ≤ d ∧ d ≤ daysInMonth y m)

/-- `datetime.date(y, m, d)`: the constructed date, or a `ValueError`. -/
def mkDate (y m d : Nat) : Option Date :=
  if validDate y m d then some ⟨y, m, d⟩ else none

/-- The `%Y` group of the CPython `_strptime` regex: exactly four digits. -/
def matchY : List Char → Option (Nat × List Char)
  | c1 :: c2 :: c3 :: c4 :: rest =>
    if c1.isDigit && c2.isDigit && c3.isDigit && c4.isDigit then
      some (1000 * digitVal c1 + 100 * digitVal c2 + 10 * digitVal c3 + digitVal c4, rest)
    else none
  | _ => none

/-- The alternatives of the `%m` group of the CPython `_strptime` regex
(`1[0-2]|0[1-9]|[1-9]`), in the engine's order; each candidate carries the
month value and the unconsumed suffix. -/
def matchMAlts (cs : List Char) : List (Nat × List Char) :=
  (match cs with
   | c1 :: c2 :: rest =>
     (if c1 = '1' ∧ '0' ≤ c2 ∧ c2 ≤ '2' then [(10 + digitVal c2, rest)] else []) ++
     (if c1 = '0' ∧ '1' ≤ c2 ∧ c2 ≤ '9' then [(digitVal c2, rest)] else [])
   | _ => []) ++
  (match cs with
   | c1 :: _rest => if '1' ≤ c1 ∧ c1 ≤ '9' then [(digitVal c1, _rest)] else []
   | [] => [])

/-- The alternatives of the `%d` group (`3[01]|[12]\d|0[1-9]|[1-9]`), in
the engine's order. -/
def matchDAlts (cs : List Char) : List (Nat × List Char) :=
  (match cs with
   | c1 :: c2 :: rest =>
     (if c1 = '3' ∧ (c2 = '0' ∨ c2 = '1') then [(30 + digitVal c2, rest)] else []) ++
     (if (c1 = '1' ∨ c1 = '2') ∧ c2.isDigit = true then
        [(10 * digitVal c1 + digitVal c2, rest)] else []) ++
     (if c1 = '0' ∧ '1' ≤ c2 ∧ c2 ≤ '9' then [(digitVal c2, rest)] else [])
   | _ => []) ++
  (match cs with
   | c1 :: _rest => if '1' ≤ c1 ∧ c1 ≤ '9' then [(digitVal c1, _rest)] else []
   | [] => [])

/-- First match of `%m%d` in backtracking order: the first month
alternative whose remainder admits a day alternative and, within it, the
first day alternative (the regex has no end anchor, so the first overall
match wins even when it strands a suffix). -/
def firstMD (cs : List Char) : Option (Nat × Nat × List Char) :=
  (matchMAlts cs).findSome? fun mr => (matchDAlts mr.2).head?.map fun dr => (mr.1, dr.1, dr.2)

/-- `datetime.strptime(s, "%Y%m%d").date()`: match the regex from the
start, fail if it fails or leaves unconverted characters, then apply the
`datetime.date` range checks. -/
def strptimeYmd (cs : List Char) : Option Date :=
  match matchY cs with
  | none => none
  | some (y, rest) =>
    match firstMD rest with
    | none => none
    | some (m, d, rest2) => if rest2 = [] then mkDate y m d else none

/-- Error raised by `_parse_line` (a `ValueError` in the source). -/
inductive ParseErr where
  | fieldCount (n : Nat)
  | badField
deriving DecidableEq, Repr

/-- `WeatherDataIngester._parse_line`: split the line on tabs, require
exactly four fields, strip each, parse the three numeric fields with
`int` and the date field with `strptime("%Y%m%d")`; any field failure
raises the same `ValueError`. -/
def parse_line (line : List Char) (station_id : String) : Except ParseErr WeatherData :=
  match splitTab line with
  | [p0, p1, p2, p3] =>
    match pyInt (pyStrip p1), pyInt (pyStrip p2), pyInt (pyStrip p3), strptimeYmd (pyStrip p0) with
    | some mx, some mn, some pr, some d =>
      .ok { station_id := station_id, date := d, max_temp := mx, min_temp := mn,
            precipitation := pr }
    | _, _, _, _ => .error .badField
  | parts => .error (.fieldCount parts.length)

instance {ε α : Type} [DecidableEq ε] [DecidableEq α] : DecidableEq (Except ε α) := fun a b =>
  match a, b with
  | .ok x, .ok y => if h : x = y then .isTrue (by rw [h]) else .isFalse (by simp [h])
  | .error x, .error y => if h : x = y then .isTrue (by rw [h]) else .isFalse (by simp [h])
  | .ok _, .error _ => .isFalse (by simp)
  | .error _, .ok _ => .isFalse (by simp)

/-- The `weather_data` table, in insertion order. -/
abbrev DB := List WeatherData

/-- The run counters of `WeatherDataIngester.stats`. -/
structure IngestStats where
  files_processed : Nat
  records_ingested : Nat
  records_skipped : Nat
  errors : Nat
deriving DecidableEq, Repr

/-- Does a row with the same `(station_id, date)` key already sit in the
table? (the `uq_station_date` unique constraint of `app/models.py`). -/
def hasKey (db : DB) (r : WeatherData) : Bool :=
  db.any fun x => x.station_id == r.station_id && x.date == r.date

/-- Would `bulk_save_objects` of `batch` into `db` hit the unique
constraint — against an existing row or between two batch rows? -/
def bulkConflict (db : DB) : List WeatherData → Bool
  | [] => false
  | r :: rest => hasKey db r || bulkConflict (db ++ [r]) rest

/-- Storage-failure oracle: `oracle r = true` means the storage layer
raises some non-`IntegrityError` exception when `r` is inserted in its
own transaction (the "any other persistence failure" of the spec);
`fun _ => false` is a healthy store. -/
abbrev FailOracle := WeatherData → Bool

/-- `WeatherDataIngester._process_individually`: one transaction per
record; an `IntegrityError` is caught (rollback, `records_skipped += 1`);
any other storage failure escapes the per-record `try` and propagates as
an exception, carrying the state already committed. -/
def process_individually (oracle : FailOracle) :
    List WeatherData → DB → IngestStats → Except (DB × IngestStats) (DB × IngestStats)
  | [], db, s => .ok (db, s)
  | r :: rest, db, s =>
    if oracle r then .error (db, s)
    else if hasKey db r then
      process_individually oracle rest db { s with records_skipped := s.records_skipped + 1 }
    else
      process_individually oracle rest (db ++ [r])
        { s with records_ingested := s.records_ingested + 1 }

/-- `WeatherDataIngester._process_batch`: bulk insert and commit in one
transaction; on an `IntegrityError` the whole transaction is rolled back
(no row of the batch is kept) and the same batch is retried record by
record. -/
def process_batch (oracle : FailOracle) (batch : List WeatherData) (db : DB) (s : IngestStats) :
    Except (DB × IngestStats) (DB × IngestStats) :=
  if bulkConflict db batch then process_individually oracle batch db s
  else .ok (db ++ batch, { s with records_ingested := s.records_ingested + batch.length })

/-- Loop state of `_ingest_file`: the table, the counters, the pending
batch, and (as a ghost log) every batch that was passed to
`_process_batch`. -/
structure FileAcc where
  db : DB
  stats : IngestStats
  batch : List WeatherData
  flushed : List (List WeatherData)

/-- One iteration of the line loop of `_ingest_file`: strip the line, skip
it when blank, parse it (a parse failure only counts one error), append
the record to the batch and flush once the batch reaches the batch size.
A flush that raises is caught by the surrounding `except` clause: one
error is counted and the loop goes on — the `batch = []` reset is
skipped, so the batch is retained. -/
def ingestLine (oracle : FailOracle) (batchSize : Nat) (sid : String) (acc : FileAcc)
    (rawLine : List Char) : FileAcc :=
  let line := pyStrip rawLine
  if line = [] then acc
  else
    match parse_line line sid with
    | .error _ => { acc with stats := { acc.stats with errors := acc.stats.errors + 1 } }
    | .ok record =>
      let batch := acc.batch ++ [record]
      if batchSize ≤ batch.length then
        match process_batch oracle batch acc.db acc.stats with
        | .ok (db2, s2) => { db := db2, stats := s2, batch := [], flushed := acc.flushed ++ [batch] }
        | .error (db2, s2) =>
          { db := db2, stats := { s2 with errors := s2.errors + 1 }, batch := batch,
            flushed := acc.flushed ++ [batch] }
      else { acc with batch := batch }

/-- `WeatherDataIngester._ingest_file`: fold the line loop over the file,
then flush the final partial batch.  That last flush sits outside the
per-line `try`, so a failure there propagates to the caller. -/
def ingest_file (oracle : FailOracle) (batchSize : Nat) (sid : String) (fileLines : List (List Char))
    (db : DB) (s : IngestStats) :
    Except (DB × IngestStats) (DB × IngestStats × List (List WeatherData)) :=
  let acc := fileLines.foldl (ingestLine oracle batchSize sid) ⟨db, s, [], []⟩
  if acc.batch = [] then .ok (acc.db, acc.stats, acc.flushed)
  else
    match process_batch oracle acc.batch acc.db acc.stats with
    | .ok (db2, s2) => .ok (db2, s2, acc.flushed ++ [acc.batch])
    | .error e => .error e

/-- A directory entry: a per-station `.txt` file, either readable with its
raw lines or one whose `open` raises. -/
inductive FileEntry where
  | readable (stem : String) (fileLines : List (List Char))
  | unreadable (stem : String)

/-- Body of the file loop of `ingest_from_directory`: any exception a file
raises is caught, logged and counted as one error; a file that completes
increments `files_processed`. -/
def processFile (oracle : FailOracle) (batchSize : Nat) (acc : DB × IngestStats) (f : FileEntry) :
    DB × IngestStats :=
  match f with
  | .unreadable _ => (acc.1, { acc.2 with errors := acc.2.errors + 1 })
  | .readable stem fileLines =>
    match ingest_file oracle batchSize stem fileLines acc.1 acc.2 with
    | .ok (db2, s2, _) => (db2, { s2 with files_processed := s2.files_processed + 1 })
    | .error (db2, s2) => (db2, { s2 with errors := s2.errors + 1 })

/-- `WeatherDataIngester.ingest_from_directory`: `none` models a missing
directory — the `FileNotFoundError` is raised before any file or record
is touched; otherwise every per-file failure is contained by the loop. -/
def ingest_from_directory (oracle : FailOracle) (batchSize : Nat) (dir : Option (List FileEntry))
    (db : DB) (s : IngestStats) : Except (DB × IngestStats) (DB × IngestStats) :=
  match dir with
  | none => .error (db, s)
  | some files => .ok (files.foldl (processFile oracle batchSize) (db, s))

/-- Row of the `weather_stats` table (the `WeatherStats` model of
`app/models.py`); timestamps are abstract clock readings, nullable floats
are `Option ℚ`. -/
structure WeatherStats where
  station_id : String
  year : Nat
  avg_max_temp : Option ℚ
  avg_min_temp : Option ℚ
  total_precipitation : Option ℚ
  created_at : Nat
  updated_at : Nat
deriving DecidableEq, Repr

/-- The missing-data sentinel. -/
def sentinel : Int := -9999

/-- The three derived values `_calculate_station_year_stats` computes for
one (station, year) group: mean of the non-sentinel max/min temperatures
divided by 10, and sum of the non-sentinel precipitations divided by 100;
`None` whenever the filtered list is empty.  Python float arithmetic is
modelled with rationals. -/
def computeStats (db : DB) (sid : String) (year : Nat) : Option ℚ × Option ℚ × Option ℚ :=
  let q : List WeatherData := db.filter fun r => r.station_id == sid && r.date.year == year
  let maxTemps : List Int := (q.filter fun r => r.max_temp != sentinel).map (·.max_temp)
  let minTemps : List Int := (q.filter fun r => r.min_temp != sentinel).map (·.min_temp)
  let precs : List Int := (q.filter fun r => r.precipitation != sentinel).map (·.precipitation)
  ( if maxTemps = [] then none
    else some ((maxTemps.map fun v : Int => (v : ℚ)).sum / (maxTemps.length : ℚ) / 10)
  , if minTemps = [] then none
    else some ((minTemps.map fun v : Int => (v : ℚ)).sum / (minTemps.length : ℚ) / 10)
  , if precs = [] then none
    else some ((precs.map fun v : Int => (v : ℚ)).sum / 100) )

/-- The filter of `WeatherStats.query.filter_by(station_id=…, year=…)`. -/
def statKeyMatch (sid : String) (year : Nat) (r : WeatherStats) : Bool :=
  r.station_id == sid && r.year == year

/-- Overwrite, in place, the three derived fields and `updated_at` of the
first row matching the key — the row `.first()` returns. -/
def overwriteFirst (sid : String) (year : Nat) (v : Option ℚ × Option ℚ × Option ℚ) (now : Nat) :
    List WeatherStats → List WeatherStats
  | [] => []
  | r :: rest =>
    if statKeyMatch sid year r then
      { r with avg_max_temp := v.1, avg_min_temp := v.2.1, total_precipitation := v.2.2,
               updated_at := now } :: rest
    else r :: overwriteFirst sid year v now rest

/-- The upsert of `_calculate_station_year_stats`: overwrite the existing
row for the key, else append a fresh one (`created_at = updated_at =
now`). -/
def upsertStat (table : List WeatherStats) (sid : String) (year : Nat)
    (v : Option ℚ × Option ℚ × Option ℚ) (now : Nat) : List WeatherStats :=
  if table.any (statKeyMatch sid year) then overwriteFirst sid year v now table
  else
    table ++ [{ station_id := sid, year := year, avg_max_temp := v.1, avg_min_temp := v.2.1,
                total_precipitation := v.2.2, created_at := now, updated_at := now }]

/-- `WeatherStatsCalculator._calculate_station_year_stats`: compute the
three derived values for the group and upsert them. -/
def calculate_station_year_stats (db : DB) (table : List WeatherStats) (sid : String) (year : Nat)
    (now : Nat) : List WeatherStats :=
  upsertStat table sid year (computeStats db sid year) now

/-- The distinct (station, year) pairs of the daily table (the `SELECT
DISTINCT` of `calculate_all_stats`), in first-appearance order. -/
def stationYears (db : DB) : List (String × Nat) :=
  (db.map fun r => (r.station_id, r.date.year)).dedup

/-- `WeatherStatsCalculator.calculate_all_stats` (whole-run mode): upsert
one summary per distinct (station, year) pair. -/
def calculate_all_stats (db : DB) (table : List WeatherStats) (now : Nat) : List WeatherStats :=
  (stationYears db).foldl (fun t p => calculate_station_year_stats db t p.1 p.2 now) table


/-- Spec-side: an eight-character digit string. -/
def syntacticYMD8 (cs : List Char) : Bool :=
  decide (cs.length = 8) && cs.all Char.isDigit

/-- Spec-side: nonempty, digits only. -/
def digitsOnly (cs : List Char) : Bool := !cs.isEmpty && cs.all Char.isDigit

/-- Spec-side: plain integer literal, optional sign then digits. -/
def intLit (cs : List Char) : Bool :=
  match cs with
  | [] => false
  | c :: rest => if c = '+' ∨ c = '-' then digitsOnly rest else digitsOnly (c :: rest)

/-- Integer denoted by a plain literal. -/
def intLitVal (cs : List Char) : Int :=
  match cs with
  | [] => 0
  | c :: rest =>
    if c = '+' then (digitsVal rest : Int)
    else if c = '-' then -(digitsVal rest : Int)
    else (digitsVal (c :: rest) : Int)

lemma daysInMonth_le (y m : Nat) : daysInMonth y m ≤ 31 := by
  unfold daysInMonth
  split_ifs <;> omega

lemma isDigit_spec (c : Char) (h : c.isDigit = true) :
    digitVal c < 10 ∧ c = Char.ofNat (48 + digitVal c) := by
  rcases c with ⟨⟨⟨n, hn⟩⟩, hv⟩
  simp only [Char.isDigit, Bool.and_eq_true, decide_eq_true_eq] at h
  obtain ⟨h1, h2⟩ := h
  have g1 : 48 ≤ n := by exact_mod_cast h1
  have g2 : n ≤ 57 := by exact_mod_cast h2
  have hd : digitVal ⟨⟨⟨n, hn⟩⟩, hv⟩ = n - 48 := rfl
  refine ⟨by rw [hd]; omega, ?_⟩
  interval_cases n <;> rfl

lemma dropWhile_eq_self_of {p : Char → Bool} :
    ∀ l : List Char, (∀ c ∈ l, p c = false) → l.dropWhile p = l := by
  intro l h
  cases l with
  | nil => rfl
  | cons a t => simp [List.dropWhile_cons, h a (List.mem_cons_self a t)]

lemma pyStrip_eq_self (cs : List Char) (h : ∀ c ∈ cs, pyWhitespace c = false) :
    pyStrip cs = cs := by
  unfold pyStrip
  rw [dropWhile_eq_self_of cs h, dropWhile_eq_self_of cs.reverse (by simpa using h),
    List.reverse_reverse]

lemma splitTab_no_tab : ∀ cs : List Char, '\t' ∉ cs → splitTab cs = [cs] := by
  intro cs h
  induction cs with
  | nil => rfl
  | cons c rest ih =>
    have hc : ¬(c = '\t') := fun hh => h (hh ▸ List.mem_cons_self c rest)
    have hr : '\t' ∉ rest := fun hh => h (List.mem_cons_of_mem c hh)
    simp [splitTab, hc, ih hr]

lemma splitTab_append : ∀ xs ys : List Char, '\t' ∉ xs →
    splitTab (xs ++ '\t' :: ys) = xs :: splitTab ys := by
  intro xs ys h
  induction xs with
  | nil => simp [splitTab]
  | cons c rest ih =>
    have hc : ¬(c = '\t') := fun hh => h (hh ▸ List.mem_cons_self c rest)
    have hr : '\t' ∉ rest := fun hh => h (List.mem_cons_of_mem c hh)
    rw [List.cons_append]
    simp only [splitTab, hc, if_false, ih hr]

lemma digitsTail_of_all : ∀ cs : List Char, cs.all Char.isDigit = true → digitsTail cs = true := by
  intro cs h
  induction cs with
  | nil => rfl
  | cons c rest ih =>
    simp only [List.all_cons, Bool.and_eq_true] at h
    have hc : ¬(c = '_') := by
      intro hh; subst hh; exact absurd h.1 (by decide)
    unfold digitsTail
    rw [if_neg hc, h.1, ih h.2, Bool.and_self]

lemma filter_underscore_of_all (cs : List Char) (h : cs.all Char.isDigit = true) :
    cs.filter (· != '_') = cs := by
  rw [List.filter_eq_self]
  intro c hc
  simp only [List.all_eq_true] at h
  have hd := h c hc
  have hne : c ≠ '_' := by
    intro hh; rw [hh] at hd; exact absurd hd (by decide)
  simpa using hne

lemma decDigits_of_all (cs : List Char) (h : digitsOnly cs = true) : decDigits cs = true := by
  cases cs with
  | nil => simp [digitsOnly] at h
  | cons c rest =>
    simp only [digitsOnly, List.all_cons, Bool.and_eq_true] at h
    simp [decDigits, h.2.1, digitsTail_of_all rest h.2.2]

lemma pyInt_intLit (cs : List Char) (h : intLit cs = true) : pyInt cs = some (intLitVal cs) := by
  cases cs with
  | nil => simp [intLit] at h
  | cons c rest =>
    by_cases hp : c = '+'
    · subst hp
      have h2 : digitsOnly rest = true := by simpa [intLit] using h
      have hall : rest.all Char.isDigit = true := by
        simp only [digitsOnly, Bool.and_eq_true] at h2; exact h2.2
      simp [pyInt, intLitVal, decDigits_of_all rest h2, filter_underscore_of_all rest hall]
    · by_cases hm : c = '-'
      · subst hm
        have h2 : digitsOnly rest = true := by simpa [intLit] using h
        have hall : rest.all Char.isDigit = true := by
          simp only [digitsOnly, Bool.and_eq_true] at h2; exact h2.2
        simp [pyInt, intLitVal, decDigits_of_all rest h2, filter_underscore_of_all rest hall]
      · have h2 : digitsOnly (c :: rest) = true := by
          simpa [intLit, hp, hm] using h
        have hall : (c :: rest).all Char.isDigit = true := by
          simp only [digitsOnly, Bool.and_eq_true] at h2; exact h2.2
        simp [pyInt, hp, hm, intLitVal, decDigits_of_all _ h2, filter_underscore_of_all _ hall]


set_option maxRecDepth 10000 in
lemma firstMD_digits : ∀ i j k l : Fin 10,
    ((1 ≤ 10 * i.1 + j.1 ∧ 10 * i.1 + j.1 ≤ 12 ∧ 1 ≤ 10 * k.1 + l.1 ∧ 10 * k.1 + l.1 ≤ 31 →
      firstMD [Char.ofNat (48 + i.1), Char.ofNat (48 + j.1),
        Char.ofNat (48 + k.1), Char.ofNat (48 + l.1)]
        = some (10 * i.1 + j.1, 10 * k.1 + l.1, [])) ∧
     (¬(1 ≤ 10 * i.1 + j.1 ∧ 10 * i.1 + j.1 ≤ 12 ∧ 1 ≤ 10 * k.1 + l.1 ∧ 10 * k.1 + l.1 ≤ 31) →
      (firstMD [Char.ofNat (48 + i.1), Char.ofNat (48 + j.1),
        Char.ofNat (48 + k.1), Char.ofNat (48 + l.1)]).all
        (fun t => !t.2.2.isEmpty) = true)) := by decide

lemma strptimeYmd_eight (c1 c2 c3 c4 c5 c6 c7 c8 : Char)
    (h1 : c1.isDigit = true) (h2 : c2.isDigit = true) (h3 : c3.isDigit = true)
    (h4 : c4.isDigit = true) (h5 : c5.isDigit = true) (h6 : c6.isDigit = true)
    (h7 : c7.isDigit = true) (h8 : c8.isDigit = true) :
    strptimeYmd [c1, c2, c3, c4, c5, c6, c7, c8] =
      mkDate (1000 * digitVal c1 + 100 * digitVal c2 + 10 * digitVal c3 + digitVal c4)
        (10 * digitVal c5 + digitVal c6) (10 * digitVal c7 + digitVal c8) := by
  obtain ⟨lt5, eq5⟩ := isDigit_spec c5 h5
  obtain ⟨lt6, eq6⟩ := isDigit_spec c6 h6
  obtain ⟨lt7, eq7⟩ := isDigit_spec c7 h7
  obtain ⟨lt8, eq8⟩ := isDigit_spec c8 h8
  have hY : matchY [c1, c2, c3, c4, c5, c6, c7, c8] =
      some (1000 * digitVal c1 + 100 * digitVal c2 + 10 * digitVal c3 + digitVal c4,
        [c5, c6, c7, c8]) := by
    simp [matchY, h1, h2, h3, h4]
  simp only [strptimeYmd, hY]
  have hb := firstMD_digits ⟨digitVal c5, lt5⟩ ⟨digitVal c6, lt6⟩ ⟨digitVal c7, lt7⟩
    ⟨digitVal c8, lt8⟩
  dsimp only at hb
  rw [← eq5, ← eq6, ← eq7, ← eq8] at hb
  by_cases hc : 1 ≤ 10 * digitVal c5 + digitVal c6 ∧ 10 * digitVal c5 + digitVal c6 ≤ 12 ∧
      1 ≤ 10 * digitVal c7 + digitVal c8 ∧ 10 * digitVal c7 + digitVal c8 ≤ 31
  · rw [hb.1 hc]
    rfl
  · have hball := hb.2 hc
    have hnone : mkDate
        (1000 * digitVal c1 + 100 * digitVal c2 + 10 * digitVal c3 + digitVal c4)
        (10 * digitVal c5 + digitVal c6) (10 * digitVal c7 + digitVal c8) = none := by
      unfold mkDate
      rw [if_neg]
      intro hv
      rw [validDate, decide_eq_true_eq] at hv
      exact hc ⟨hv.2.2.1, hv.2.2.2.1, hv.2.2.2.2.1,
        le_trans hv.2.2.2.2.2 (daysInMonth_le _ _)⟩
    rw [hnone]
    cases hfm : firstMD [c5, c6, c7, c8] with
    | none => rfl
    | some t =>
      obtain ⟨m, d, r2⟩ := t
      rw [hfm] at hball
      simp only [Option.all_some, Bool.not_eq_true'] at hball
      dsimp only
      rw [if_neg]
      intro h0
      rw [h0] at hball
      exact absurd hball (by decide)


/-- Spec-side: a valid YYYYMMDD date field — eight digits whose natural
reading (four-digit year, two-digit month, two-digit day) is a valid
calendar date. -/
def validYMD8 (cs : List Char) : Bool :=
  syntacticYMD8 cs &&
  validDate (digitsVal (cs.take 4)) (digitsVal ((cs.drop 4).take 2)) (digitsVal (cs.drop 6))

/-- Decimal digit character of `n % 10`. -/
def decChar (n : Nat) : Char := Char.ofNat (48 + n % 10)

/-- Re-derive the date field in its `YYYYMMDD` form (`%04d%02d%02d`). -/
def formatYMD (dt : Date) : List Char :=
  [decChar (dt.year / 1000), decChar (dt.year / 100), decChar (dt.year / 10), decChar dt.year,
   decChar (dt.month / 10), decChar dt.month, decChar (dt.day / 10), decChar dt.day]

lemma isDigit_not_ws (c : Char) (h : c.isDigit = true) : pyWhitespace c = false := by
  obtain ⟨lt, eq⟩ := isDigit_spec c h
  rw [eq]
  generalize digitVal c = n at lt ⊢
  interval_cases n <;> decide

lemma isDigit_not_tab (c : Char) (h : c.isDigit = true) : ¬(c = '\t') := by
  intro hh
  rw [hh] at h
  exact absurd h (by decide)

lemma all_digits_no_tab (cs : List Char) (h : cs.all Char.isDigit = true) : '\t' ∉ cs := by
  intro hm
  simp only [List.all_eq_true] at h
  exact absurd (h _ hm) (by decide)

lemma all_digits_no_ws (cs : List Char) (h : cs.all Char.isDigit = true) :
    ∀ c ∈ cs, pyWhitespace c = false := by
  intro c hc
  simp only [List.all_eq_true] at h
  exact isDigit_not_ws c (h c hc)

lemma intLit_no_tab (cs : List Char) (h : intLit cs = true) :
    '\t' ∉ cs ∧ ∀ c ∈ cs, pyWhitespace c = false := by
  cases cs with
  | nil => simp [intLit] at h
  | cons c rest =>
    by_cases hs : c = '+' ∨ c = '-'
    · have h2 : digitsOnly rest = true := by
        rcases hs with hs | hs <;> (subst hs; simpa [intLit] using h)
      have hall : rest.all Char.isDigit = true := by
        simp only [digitsOnly, Bool.and_eq_true] at h2; exact h2.2
      constructor
      · intro hm
        rcases List.mem_cons.mp hm with hm | hm
        · rcases hs with hs | hs <;> (rw [hs] at hm; exact absurd hm.symm (by decide))
        · exact all_digits_no_tab rest hall hm
      · intro x hx
        rcases List.mem_cons.mp hx with hx | hx
        · subst hx
          rcases hs with hs | hs <;> (rw [hs]; decide)
        · exact all_digits_no_ws rest hall x hx
    · push_neg at hs
      have h2 : digitsOnly (c :: rest) = true := by
        simpa [intLit, hs.1, hs.2] using h
      have hall : (c :: rest).all Char.isDigit = true := by
        simp only [digitsOnly, Bool.and_eq_true] at h2; exact h2.2
      exact ⟨all_digits_no_tab _ hall, all_digits_no_ws _ hall⟩

lemma list_length_eight {α : Type} (l : List α) (h : l.length = 8) :
    ∃ a1 a2 a3 a4 a5 a6 a7 a8, l = [a1, a2, a3, a4, a5, a6, a7, a8] := by
  rcases l with _ | ⟨a1, _ | ⟨a2, _ | ⟨a3, _ | ⟨a4, _ | ⟨a5, _ | ⟨a6, _ | ⟨a7, _ | ⟨a8, rest⟩⟩⟩⟩⟩⟩⟩⟩ <;>
    simp_all

lemma digitsVal_four (a b c d : Char) :
    digitsVal [a, b, c, d] =
      1000 * digitVal a + 100 * digitVal b + 10 * digitVal c + digitVal d := by
  simp [digitsVal, List.foldl]
  ring

lemma digitsVal_two (a b : Char) : digitsVal [a, b] = 10 * digitVal a + digitVal b := by
  simp [digitsVal, List.foldl]

lemma formatYMD_eight (c1 c2 c3 c4 c5 c6 c7 c8 : Char)
    (h1 : c1.isDigit = true) (h2 : c2.isDigit = true) (h3 : c3.isDigit = true)
    (h4 : c4.isDigit = true) (h5 : c5.isDigit = true) (h6 : c6.isDigit = true)
    (h7 : c7.isDigit = true) (h8 : c8.isDigit = true) :
    formatYMD ⟨1000 * digitVal c1 + 100 * digitVal c2 + 10 * digitVal c3 + digitVal c4,
      10 * digitVal c5 + digitVal c6, 10 * digitVal c7 + digitVal c8⟩ =
      [c1, c2, c3, c4, c5, c6, c7, c8] := by
  obtain ⟨lt1, eq1⟩ := isDigit_spec c1 h1
  obtain ⟨lt2, eq2⟩ := isDigit_spec c2 h2
  obtain ⟨lt3, eq3⟩ := isDigit_spec c3 h3
  obtain ⟨lt4, eq4⟩ := isDigit_spec c4 h4
  obtain ⟨lt5, eq5⟩ := isDigit_spec c5 h5
  obtain ⟨lt6, eq6⟩ := isDigit_spec c6 h6
  obtain ⟨lt7, eq7⟩ := isDigit_spec c7 h7
  obtain ⟨lt8, eq8⟩ := isDigit_spec c8 h8
  have e1 : (1000 * digitVal c1 + 100 * digitVal c2 + 10 * digitVal c3 + digitVal c4) / 1000 % 10
      = digitVal c1 := by omega
  have e2 : (1000 * digitVal c1 + 100 * digitVal c2 + 10 * digitVal c3 + digitVal c4) / 100 % 10
      = digitVal c2 := by omega
  have e3 : (1000 * digitVal c1 + 100 * digitVal c2 + 10 * digitVal c3 + digitVal c4) / 10 % 10
      = digitVal c3 := by omega
  have e4 : (1000 * digitVal c1 + 100 * digitVal c2 + 10 * digitVal c3 + digitVal c4) % 10
      = digitVal c4 := by omega
  have e5 : (10 * digitVal c5 + digitVal c6) / 10 % 10 = digitVal c5 := by omega
  have e6 : (10 * digitVal c5 + digitVal c6) % 10 = digitVal c6 := by omega
  have e7 : (10 * digitVal c7 + digitVal c8) / 10 % 10 = digitVal c7 := by omega
  have e8 : (10 * digitVal c7 + digitVal c8) % 10 = digitVal c8 := by omega
  simp only [formatYMD, decChar]
  rw [e1, e2, e3, e4, e5, e6, e7, e8, ← eq1, ← eq2, ← eq3, ← eq4, ← eq5, ← eq6, ← eq7, ← eq8]

/-- C4 — Line Parser success postcondition and round trip: a line of four
tab-separated fields whose first field is a valid YYYYMMDD calendar date
and whose other three fields are plain integer literals parses into a
record carrying the caller's station identifier, the read calendar date
and the three integers verbatim; re-deriving the four fields from the
record reproduces the original field values exactly. -/
theorem c4_parser_success_round_trip (d a b c : List Char) (sid : String)
    (hd : validYMD8 d = true) (ha : intLit a = true) (hb : intLit b = true)
    (hc : intLit c = true) :
    parse_line (d ++ '\t' :: (a ++ '\t' :: (b ++ '\t' :: c))) sid =
      .ok { station_id := sid
            date := ⟨digitsVal (d.take 4), digitsVal ((d.drop 4).take 2), digitsVal (d.drop 6)⟩
            max_temp := intLitVal a
            min_temp := intLitVal b
            precipitation := intLitVal c } ∧
    formatYMD ⟨digitsVal (d.take 4), digitsVal ((d.drop 4).take 2), digitsVal (d.drop 6)⟩ = d := by
  simp only [validYMD8, syntacticYMD8, Bool.and_eq_true, decide_eq_true_eq] at hd
  obtain ⟨⟨hlen, hdig⟩, hvd⟩ := hd
  obtain ⟨c1, c2, c3, c4, c5, c6, c7, c8, rfl⟩ := list_length_eight d hlen
  simp only [List.all_cons, List.all_nil, Bool.and_eq_true] at hdig
  obtain ⟨g1, g2, g3, g4, g5, g6, g7, g8, -⟩ := hdig
  have hdtab : '\t' ∉ [c1, c2, c3, c4, c5, c6, c7, c8] :=
    all_digits_no_tab _ (by simp [g1, g2, g3, g4, g5, g6, g7, g8])
  have hdws := all_digits_no_ws [c1, c2, c3, c4, c5, c6, c7, c8]
    (by simp [g1, g2, g3, g4, g5, g6, g7, g8])
  obtain ⟨hatab, haws⟩ := intLit_no_tab a ha
  obtain ⟨hbtab, hbws⟩ := intLit_no_tab b hb
  obtain ⟨hctab, hcws⟩ := intLit_no_tab c hc
  have hsp : splitTab ([c1, c2, c3, c4, c5, c6, c7, c8] ++ '\t' :: (a ++ '\t' :: (b ++ '\t' :: c)))
      = [[c1, c2, c3, c4, c5, c6, c7, c8], a, b, c] := by
    rw [splitTab_append _ _ hdtab, splitTab_append _ _ hatab, splitTab_append _ _ hbtab,
      splitTab_no_tab _ hctab]
  have htake4 : ([c1, c2, c3, c4, c5, c6, c7, c8].take 4) = [c1, c2, c3, c4] := rfl
  have hmid : (([c1, c2, c3, c4, c5, c6, c7, c8].drop 4).take 2) = [c5, c6] := rfl
  have hdrop6 : ([c1, c2, c3, c4, c5, c6, c7, c8].drop 6) = [c7, c8] := rfl
  rw [htake4, hmid, hdrop6, digitsVal_four, digitsVal_two, digitsVal_two] at hvd ⊢
  have hstrip : pyStrip [c1, c2, c3, c4, c5, c6, c7, c8] = [c1, c2, c3, c4, c5, c6, c7, c8] :=
    pyStrip_eq_self _ hdws
  have hdate : strptimeYmd [c1, c2, c3, c4, c5, c6, c7, c8] =
      some ⟨1000 * digitVal c1 + 100 * digitVal c2 + 10 * digitVal c3 + digitVal c4,
        10 * digitVal c5 + digitVal c6, 10 * digitVal c7 + digitVal c8⟩ := by
    rw [strptimeYmd_eight c1 c2 c3 c4 c5 c6 c7 c8 g1 g2 g3 g4 g5 g6 g7 g8]
    unfold mkDate
    rw [if_pos hvd]
  constructor
  · simp only [parse_line, hsp, pyStrip_eq_self a haws, pyStrip_eq_self b hbws,
      pyStrip_eq_self c hcws, hstrip, pyInt_intLit a ha, pyInt_intLit b hb, pyInt_intLit c hc,
      hdate]
  · exact formatYMD_eight c1 c2 c3 c4 c5 c6 c7 c8 g1 g2 g3 g4 g5 g6 g7 g8


theorem c4_witness :
    parse_line ("19850101".toList ++ '\t' :: ("-22".toList ++ '\t' :: ("-128".toList ++ '\t' ::
        "94".toList))) "S1" =
      .ok { station_id := "S1"
            date := ⟨digitsVal ("19850101".toList.take 4),
              digitsVal (("19850101".toList.drop 4).take 2), digitsVal ("19850101".toList.drop 6)⟩
            max_temp := intLitVal "-22".toList
            min_temp := intLitVal "-128".toList
            precipitation := intLitVal "94".toList } ∧
    formatYMD ⟨digitsVal ("19850101".toList.take 4), digitsVal (("19850101".toList.drop 4).take 2),
      digitsVal ("19850101".toList.drop 6)⟩ = "19850101".toList :=
  c4_parser_success_round_trip "19850101".toList "-22".toList "-128".toList "94".toList "S1"
    (by decide) (by decide) (by decide) (by decide)

/-- C5 — counterexample: the seven-character date field `"1985123"` does
not match the YYYYMMDD pattern, yet the line parses successfully (Python
accepts one-digit day specifications), so "fails with a ParseError if the
date field does not match pattern YYYYMMDD" is false as stated. -/
theorem c5_counterexample_short_date_parses :
    syntacticYMD8 (pyStrip "1985123".toList) = false ∧
    parse_line "1985123\t1\t2\t3".toList "S1" =
      .ok { station_id := "S1", date := ⟨1985, 12, 3⟩, max_temp := 1, min_temp := 2,
            precipitation := 3 } := by
  constructor
  · rfl
  · rfl

theorem c5_parser_failure_conditions_amended (line : List Char) (sid : String) :
    ((∃ e, parse_line line sid = .error e) ↔
      ((splitTab line).length ≠ 4 ∨
        ∃ p0 p1 p2 p3, splitTab line = [p0, p1, p2, p3] ∧
          ((strptimeYmd (pyStrip p0)).isNone ∨ (pyInt (pyStrip p1)).isNone ∨
           (pyInt (pyStrip p2)).isNone ∨ (pyInt (pyStrip p3)).isNone))) ∧
    parse_line "19850101\t-22\t-128".toList sid = .error (.fieldCount 3) := by
  refine ⟨?_, rfl⟩
  rcases hsp : splitTab line with _ | ⟨p0, _ | ⟨p1, _ | ⟨p2, _ | ⟨p3, _ | ⟨p4, rr⟩⟩⟩⟩⟩
  · simp [parse_line, hsp]
  · simp [parse_line, hsp]
  · simp [parse_line, hsp]
  · simp [parse_line, hsp]
  · rcases h1 : pyInt (pyStrip p1) with _ | mx <;>
      rcases h2 : pyInt (pyStrip p2) with _ | mn <;>
        rcases h3 : pyInt (pyStrip p3) with _ | pr <;>
          rcases h0 : strptimeYmd (pyStrip p0) with _ | dt <;>
            (simp [parse_line, hsp, h1, h2, h3, h0]
             first
              | exact ⟨p0, p1, p2, p3, ⟨rfl, rfl, rfl, rfl⟩, by simp [h0, h1, h2, h3]⟩
              | (rintro q0 q1 q2 q3 rfl rfl rfl rfl
                 simp [h0, h1, h2, h3]))
  · simp [parse_line, hsp]

theorem c10_parser_calendar_validity (line : List Char) (sid : String) (p0 : List Char)
    (rest : List (List Char)) (hsp : splitTab line = p0 :: rest)
    (h8 : syntacticYMD8 (pyStrip p0) = true)
    (hbad : validDate (digitsVal ((pyStrip p0).take 4)) (digitsVal (((pyStrip p0).drop 4).take 2))
      (digitsVal ((pyStrip p0).drop 6)) = false) :
    ∃ e, parse_line line sid = .error e := by
  simp only [syntacticYMD8, Bool.and_eq_true, decide_eq_true_eq] at h8
  obtain ⟨hlen, hdig⟩ := h8
  obtain ⟨c1, c2, c3, c4, c5, c6, c7, c8, hq⟩ := list_length_eight (pyStrip p0) hlen
  rw [hq] at hbad hdig
  simp only [List.all_cons, List.all_nil, Bool.and_eq_true] at hdig
  obtain ⟨g1, g2, g3, g4, g5, g6, g7, g8, -⟩ := hdig
  have htake4 : ([c1, c2, c3, c4, c5, c6, c7, c8].take 4) = [c1, c2, c3, c4] := rfl
  have hmid : (([c1, c2, c3, c4, c5, c6, c7, c8].drop 4).take 2) = [c5, c6] := rfl
  have hdrop6 : ([c1, c2, c3, c4, c5, c6, c7, c8].drop 6) = [c7, c8] := rfl
  rw [htake4, hmid, hdrop6, digitsVal_four, digitsVal_two, digitsVal_two] at hbad
  have hdate : strptimeYmd (pyStrip p0) = none := by
    rw [hq, strptimeYmd_eight c1 c2 c3 c4 c5 c6 c7 c8 g1 g2 g3 g4 g5 g6 g7 g8]
    unfold mkDate
    rw [if_neg]
    rw [hbad]
    simp
  rcases rest with _ | ⟨p1, _ | ⟨p2, _ | ⟨p3, _ | ⟨p4, rr⟩⟩⟩⟩
  · exact ⟨.fieldCount 1, by simp [parse_line, hsp]⟩
  · exact ⟨.fieldCount 2, by simp [parse_line, hsp]⟩
  · exact ⟨.fieldCount 3, by simp [parse_line, hsp]⟩
  · rcases h1 : pyInt (pyStrip p1) with _ | mx <;>
      rcases h2 : pyInt (pyStrip p2) with _ | mn <;>
        rcases h3 : pyInt (pyStrip p3) with _ | pr <;>
          exact ⟨.badField, by simp [parse_line, hsp, h1, h2, h3, hdate]⟩
  · exact ⟨.fieldCount (p0 :: p1 :: p2 :: p3 :: p4 :: rr).length, by simp [parse_line, hsp]⟩

theorem c10_witness :
    (∃ e, parse_line "19850231\t1\t2\t3".toList "S1" = .error e) ∧
    (∃ e, parse_line "19851301\t1\t2\t3".toList "S1" = .error e) :=
  ⟨c10_parser_calendar_validity "19850231\t1\t2\t3".toList "S1" "19850231".toList
      ["1".toList, "2".toList, "3".toList] (by decide) (by decide) (by decide),
   c10_parser_calendar_validity "19851301\t1\t2\t3".toList "S1" "19851301".toList
      ["1".toList, "2".toList, "3".toList] (by decide) (by decide) (by decide)⟩


/-- The uniqueness invariant of `weather_data`: at most one row per
`(station_id, date)` pair (`uq_station_date`). -/
def uniqueKeys (db : DB) : Prop :=
  (db.map fun r => (r.station_id, r.date)).Nodup

instance (db : DB) : Decidable (uniqueKeys db) := by
  unfold uniqueKeys
  infer_instance

/-- State carried by a result of the loader, whether it returned or
raised. -/
def stateOf : Except (DB × IngestStats) (DB × IngestStats) → DB × IngestStats
  | .ok x => x
  | .error x => x

lemma hasKey_iff_mem (db : DB) (r : WeatherData) :
    hasKey db r = true ↔ (r.station_id, r.date) ∈ db.map fun x => (x.station_id, x.date) := by
  simp only [hasKey, List.any_eq_true, Bool.and_eq_true, beq_iff_eq, List.mem_map]
  constructor
  · rintro ⟨x, hx, h1, h2⟩
    exact ⟨x, hx, by rw [h1, h2]⟩
  · rintro ⟨x, hx, h⟩
    exact ⟨x, hx, (Prod.mk.injEq _ _ _ _).mp h.symm |>.imp Eq.symm Eq.symm |>.imp id id⟩

lemma hasKey_append (db1 db2 : DB) (r : WeatherData) :
    hasKey (db1 ++ db2) r = (hasKey db1 r || hasKey db2 r) := by
  simp [hasKey, List.any_append]

lemma uniqueKeys_snoc (db : DB) (r : WeatherData) (h : uniqueKeys db)
    (hk : hasKey db r = false) : uniqueKeys (db ++ [r]) := by
  simp only [uniqueKeys, List.map_append, List.map_cons, List.map_nil]
  rw [List.nodup_append]
  refine ⟨h, List.nodup_singleton _, ?_⟩
  intro a ha hb
  simp only [List.mem_singleton] at hb
  subst hb
  rw [← hasKey_iff_mem] at ha
  rw [ha] at hk
  exact absurd hk (by decide)

lemma process_individually_ok (oracle : FailOracle) :
    ∀ (batch : List WeatherData) (db : DB) (s : IngestStats),
      (∀ r ∈ batch, oracle r = false) →
      ∃ new : List WeatherData,
        process_individually oracle batch db s =
          .ok (db ++ new,
            { s with records_ingested := s.records_ingested + new.length,
                     records_skipped := s.records_skipped + (batch.length - new.length) }) ∧
        new.Sublist batch ∧
        (∀ r ∈ batch, hasKey db r = true → r ∉ new) ∧
        (uniqueKeys db → uniqueKeys (db ++ new)) := by
  intro batch
  induction batch with
  | nil =>
    intro db s _
    exact ⟨[], by simp [process_individually], List.Sublist.refl _, by simp, by simp⟩
  | cons r rest ih =>
    intro db s hor
    have hr : oracle r = false := hor r (List.mem_cons_self r rest)
    have hrest : ∀ x ∈ rest, oracle x = false := fun x hx => hor x (List.mem_cons_of_mem r hx)
    by_cases hk : hasKey db r = true
    · obtain ⟨new, heq, hsub, hmem, huniq⟩ :=
        ih db { s with records_skipped := s.records_skipped + 1 } hrest
      refine ⟨new, ?_, hsub.cons r, ?_, huniq⟩
      · rw [process_individually, if_neg (by rw [hr]; exact Bool.false_ne_true), if_pos hk, heq]
        have hle : new.length ≤ rest.length := hsub.length_le
        simp only [Except.ok.injEq, Prod.mk.injEq, IngestStats.mk.injEq, List.length_cons,
          true_and, and_true]
        omega
      · intro x hx hkx
        rcases List.mem_cons.mp hx with hx | hx
        · subst hx
          intro hmemnew
          exact hmem x (hsub.subset hmemnew) hkx hmemnew
        · exact hmem x hx hkx
    · rw [Bool.not_eq_true] at hk
      obtain ⟨new, heq, hsub, hmem, huniq⟩ :=
        ih (db ++ [r]) { s with records_ingested := s.records_ingested + 1 } hrest
      refine ⟨r :: new, ?_, hsub.cons₂ r, ?_, ?_⟩
      · rw [process_individually, if_neg (by rw [hr]; exact Bool.false_ne_true), if_neg (by rw [hk]; exact Bool.false_ne_true), heq]
        have hle : new.length ≤ rest.length := hsub.length_le
        rw [List.append_assoc]
        simp only [Except.ok.injEq, Prod.mk.injEq, IngestStats.mk.injEq, List.length_cons,
          List.singleton_append, List.append_cancel_left_eq, true_and, and_true]
        omega
      · intro x hx hkx
        intro hmemnew
        rcases List.mem_cons.mp hmemnew with hxr | hxnew
        · subst hxr
          rw [hkx] at hk
          exact absurd hk (by decide)
        · have hkx2 : hasKey (db ++ [r]) x = true := by
            rw [hasKey_append, hkx, Bool.true_or]
          rcases List.mem_cons.mp hx with hxr | hxrest
          · subst hxr
            rw [hkx] at hk
            exact absurd hk (by decide)
          · exact hmem x hxrest hkx2 hxnew
      · intro hu
        rw [show db ++ r :: new = (db ++ [r]) ++ new by simp]
        exact huniq (uniqueKeys_snoc db r hu hk)

lemma process_individually_err (oracle : FailOracle) :
    ∀ (pre : List WeatherData) (rbad : WeatherData) (post : List WeatherData) (db : DB)
      (s : IngestStats),
      (∀ r ∈ pre, oracle r = false) → oracle rbad = true →
      ∃ new : List WeatherData,
        process_individually oracle (pre ++ rbad :: post) db s =
          .error (db ++ new,
            { s with records_ingested := s.records_ingested + new.length,
                     records_skipped := s.records_skipped + (pre.length - new.length) }) ∧
        new.Sublist pre ∧
        (uniqueKeys db → uniqueKeys (db ++ new)) := by
  intro pre
  induction pre with
  | nil =>
    intro rbad post db s _ hbad
    refine ⟨[], ?_, List.Sublist.refl _, by simp⟩
    rw [List.nil_append, process_individually, if_pos hbad]
    simp
  | cons r rest ih =>
    intro rbad post db s hor hbad
    have hr : oracle r = false := hor r (List.mem_cons_self r rest)
    have hrest : ∀ x ∈ rest, oracle x = false := fun x hx => hor x (List.mem_cons_of_mem r hx)
    by_cases hk : hasKey db r = true
    · obtain ⟨new, heq, hsub, huniq⟩ :=
        ih rbad post db { s with records_skipped := s.records_skipped + 1 } hrest hbad
      refine ⟨new, ?_, hsub.cons r, huniq⟩
      rw [List.cons_append, process_individually, if_neg (by rw [hr]; exact Bool.false_ne_true),
        if_pos hk, heq]
      have hle : new.length ≤ rest.length := hsub.length_le
      simp only [Except.error.injEq, Prod.mk.injEq, IngestStats.mk.injEq, List.length_cons,
        true_and, and_true]
      omega
    · rw [Bool.not_eq_true] at hk
      obtain ⟨new, heq, hsub, huniq⟩ :=
        ih rbad post (db ++ [r]) { s with records_ingested := s.records_ingested + 1 } hrest hbad
      refine ⟨r :: new, ?_, hsub.cons₂ r, ?_⟩
      · rw [List.cons_append, process_individually,
          if_neg (by rw [hr]; exact Bool.false_ne_true),
          if_neg (by rw [hk]; exact Bool.false_ne_true), heq]
        have hle : new.length ≤ rest.length := hsub.length_le
        rw [List.append_assoc]
        simp only [Except.error.injEq, Prod.mk.injEq, IngestStats.mk.injEq, List.length_cons,
          List.singleton_append, List.append_cancel_left_eq, true_and, and_true]
        omega
      · intro hu
        rw [show db ++ r :: new = (db ++ [r]) ++ new by simp]
        exact huniq (uniqueKeys_snoc db r hu hk)


lemma process_batch_conflict (oracle : FailOracle) (batch : List WeatherData) (db : DB)
    (s : IngestStats) (h : bulkConflict db batch = true) :
    process_batch oracle batch db s = process_individually oracle batch db s := by
  simp [process_batch, h]

lemma process_batch_no_conflict (oracle : FailOracle) (batch : List WeatherData) (db : DB)
    (s : IngestStats) (h : bulkConflict db batch = false) :
    process_batch oracle batch db s =
      .ok (db ++ batch, { s with records_ingested := s.records_ingested + batch.length }) := by
  simp [process_batch, h]

lemma bulkConflict_false_unique :
    ∀ (batch : List WeatherData) (db : DB), uniqueKeys db → bulkConflict db batch = false →
      uniqueKeys (db ++ batch) := by
  intro batch
  induction batch with
  | nil => intro db h _; simpa using h
  | cons r rest ih =>
    intro db h hb
    rw [bulkConflict, Bool.or_eq_false_iff] at hb
    have hnext := ih (db ++ [r]) (uniqueKeys_snoc db r h hb.1) hb.2
    rw [show db ++ r :: rest = (db ++ [r]) ++ rest by simp]
    exact hnext

lemma process_individually_state (oracle : FailOracle) :
    ∀ (batch : List WeatherData) (db : DB) (s : IngestStats),
      ∃ new, (stateOf (process_individually oracle batch db s)).1 = db ++ new ∧
        (uniqueKeys db → uniqueKeys (db ++ new)) := by
  intro batch
  induction batch with
  | nil => intro db s; exact ⟨[], by simp [process_individually, stateOf], by simp⟩
  | cons r rest ih =>
    intro db s
    by_cases ho : oracle r = true
    · exact ⟨[], by simp [process_individually, ho, stateOf], by simp⟩
    · rw [Bool.not_eq_true] at ho
      by_cases hk : hasKey db r = true
      · obtain ⟨new, h1, h2⟩ := ih db { s with records_skipped := s.records_skipped + 1 }
        refine ⟨new, ?_, h2⟩
        rw [process_individually, if_neg (by rw [ho]; exact Bool.false_ne_true), if_pos hk]
        exact h1
      · rw [Bool.not_eq_true] at hk
        obtain ⟨new, h1, h2⟩ := ih (db ++ [r]) { s with records_ingested := s.records_ingested + 1 }
        refine ⟨r :: new, ?_, ?_⟩
        · rw [process_individually, if_neg (by rw [ho]; exact Bool.false_ne_true),
            if_neg (by rw [hk]; exact Bool.false_ne_true), h1]
          simp
        · intro hu
          rw [show db ++ r :: new = (db ++ [r]) ++ new by simp]
          exact h2 (uniqueKeys_snoc db r hu hk)

lemma process_batch_state (oracle : FailOracle) (batch : List WeatherData) (db : DB)
    (s : IngestStats) :
    ∃ new, (stateOf (process_batch oracle batch db s)).1 = db ++ new ∧
      (uniqueKeys db → uniqueKeys (db ++ new)) := by
  by_cases hb : bulkConflict db batch = true
  · rw [process_batch_conflict oracle batch db s hb]
    exact process_individually_state oracle batch db s
  · rw [Bool.not_eq_true] at hb
    exact ⟨batch, by rw [process_batch_no_conflict oracle batch db s hb]; rfl,
      fun hu => bulkConflict_false_unique batch db hu hb⟩

lemma ingestLine_unique (oracle : FailOracle) (batchSize : Nat) (sid : String) (acc : FileAcc)
    (rawLine : List Char) (h : uniqueKeys acc.db) :
    uniqueKeys (ingestLine oracle batchSize sid acc rawLine).db := by
  rw [ingestLine]
  by_cases hb : pyStrip rawLine = []
  · rw [if_pos hb]; exact h
  · rw [if_neg hb]
    cases hp : parse_line (pyStrip rawLine) sid with
    | error e => exact h
    | ok record =>
      dsimp only
      by_cases hflush : batchSize ≤ (acc.batch ++ [record]).length
      · rw [if_pos hflush]
        obtain ⟨new, h1, h2⟩ := process_batch_state oracle (acc.batch ++ [record]) acc.db acc.stats
        cases hpb : process_batch oracle (acc.batch ++ [record]) acc.db acc.stats with
        | ok x =>
          obtain ⟨db2, s2⟩ := x
          rw [hpb] at h1
          simp only [stateOf] at h1
          dsimp only
          rw [h1]
          exact h2 h
        | error x =>
          obtain ⟨db2, s2⟩ := x
          rw [hpb] at h1
          simp only [stateOf] at h1
          dsimp only
          rw [h1]
          exact h2 h
      · rw [if_neg hflush]
        exact h

lemma foldl_ingestLine_unique (oracle : FailOracle) (batchSize : Nat) (sid : String) :
    ∀ (fileLines : List (List Char)) (acc : FileAcc), uniqueKeys acc.db →
      uniqueKeys (fileLines.foldl (ingestLine oracle batchSize sid) acc).db := by
  intro fileLines
  induction fileLines with
  | nil => intro acc h; exact h
  | cons l rest ih =>
    intro acc h
    exact ih (ingestLine oracle batchSize sid acc l)
      (ingestLine_unique oracle batchSize sid acc l h)

lemma processFile_unique (oracle : FailOracle) (batchSize : Nat) (acc : DB × IngestStats)
    (f : FileEntry) (h : uniqueKeys acc.1) :
    uniqueKeys (processFile oracle batchSize acc f).1 := by
  cases f with
  | unreadable stem => exact h
  | readable stem fileLines =>
    rw [processFile, ingest_file]
    have hacc : uniqueKeys (fileLines.foldl (ingestLine oracle batchSize stem)
        ⟨acc.1, acc.2, [], []⟩).db :=
      foldl_ingestLine_unique oracle batchSize stem fileLines ⟨acc.1, acc.2, [], []⟩ h
    set acc2 := fileLines.foldl (ingestLine oracle batchSize stem) ⟨acc.1, acc.2, [], []⟩ with hacc2
    by_cases hempty : acc2.batch = []
    · rw [if_pos hempty]
      exact hacc
    · rw [if_neg hempty]
      obtain ⟨new, h1, h2⟩ := process_batch_state oracle acc2.batch acc2.db acc2.stats
      cases hpb : process_batch oracle acc2.batch acc2.db acc2.stats with
      | ok x =>
        obtain ⟨db2, s2⟩ := x
        rw [hpb] at h1
        simp only [stateOf] at h1
        dsimp only
        rw [h1]
        exact h2 hacc
      | error x =>
        obtain ⟨db2, s2⟩ := x
        rw [hpb] at h1
        simp only [stateOf] at h1
        dsimp only
        rw [h1]
        exact h2 hacc


lemma foldl_processFile_unique (oracle : FailOracle) (batchSize : Nat) :
    ∀ (files : List FileEntry) (acc : DB × IngestStats), uniqueKeys acc.1 →
      uniqueKeys (files.foldl (processFile oracle batchSize) acc).1 := by
  intro files
  induction files with
  | nil => intro acc h; exact h
  | cons f rest ih =>
    intro acc h
    exact ih (processFile oracle batchSize acc f) (processFile_unique oracle batchSize acc f h)

lemma filter_key_length_one :
    ∀ (db : DB) (r : WeatherData), uniqueKeys db → r ∈ db →
      (db.filter fun x => x.station_id == r.station_id && x.date == r.date).length = 1 := by
  intro db
  induction db with
  | nil => intro r _ h; cases h
  | cons a rest ih =>
    intro r hu hr
    have hu2 : uniqueKeys rest ∧
        (a.station_id, a.date) ∉ rest.map fun x => (x.station_id, x.date) := by
      simp only [uniqueKeys, List.map_cons, List.nodup_cons] at hu
      exact ⟨hu.2, hu.1⟩
    rcases List.mem_cons.mp hr with hra | hrrest
    · subst hra
      have hnil : rest.filter (fun x => x.station_id == r.station_id && x.date == r.date)
          = [] := by
        rw [List.filter_eq_nil_iff]
        intro x hx hpx
        simp only [Bool.and_eq_true, beq_iff_eq] at hpx
        exact hu2.2 (by rw [← hpx.1, ← hpx.2]; exact List.mem_map_of_mem _ hx)
      simp [List.filter_cons, hnil]
    · have hane : ¬(a.station_id == r.station_id && a.date == r.date) = true := by
        intro hax
        simp only [Bool.and_eq_true, beq_iff_eq] at hax
        exact hu2.2 (by rw [hax.1, hax.2]; exact List.mem_map_of_mem _ hrrest)
      rw [List.filter_cons, if_neg hane]
      exact ih r hu2.1 hrrest

/-- C3 — uniqueness invariant and duplicate semantics: every ingestion run
preserves "at most one DailyRecord per (station, date)", whatever the
directory contents, batch size and storage behaviour; and a batch holding
a record whose key is already persisted leaves the table untouched and
counts the record as skipped, the first record unmodified and the row
count for that key at one. -/
theorem c3_uniqueness_invariant_and_duplicates :
    (∀ (oracle : FailOracle) (batchSize : Nat) (dir : Option (List FileEntry)) (db : DB)
        (s : IngestStats), uniqueKeys db →
        uniqueKeys (stateOf (ingest_from_directory oracle batchSize dir db s)).1) ∧
    (∀ (oracle : FailOracle) (db : DB) (s : IngestStats) (r r2 : WeatherData),
        uniqueKeys db → r ∈ db → r2.station_id = r.station_id → r2.date = r.date →
        oracle r2 = false →
        process_batch oracle [r2] db s =
          .ok (db, { s with records_skipped := s.records_skipped + 1 }) ∧
        (db.filter fun x => x.station_id == r2.station_id && x.date == r2.date).length = 1) := by
  constructor
  · intro oracle batchSize dir db s h
    cases dir with
    | none => exact h
    | some files => exact foldl_processFile_unique oracle batchSize files (db, s) h
  · intro oracle db s r r2 hu hr hsid hdate hor
    have hk : hasKey db r2 = true := by
      rw [hasKey_iff_mem, hsid, hdate]
      exact List.mem_map_of_mem _ hr
    have hbulk : bulkConflict db [r2] = true := by
      rw [bulkConflict, bulkConflict, hk]
      rfl
    constructor
    · rw [process_batch_conflict oracle [r2] db s hbulk, process_individually,
        if_neg (by rw [hor]; exact Bool.false_ne_true), if_pos hk]
      rw [process_individually]
    · have := filter_key_length_one db r hu hr
      rw [hsid, hdate]
      exact this

theorem c3_witness :
    uniqueKeys (stateOf (ingest_from_directory (fun _ => false) 1000
      (some [FileEntry.readable "A" ["19850101\t1\t2\t3".toList]]) [] ⟨0, 0, 0, 0⟩)).1 ∧
    (process_batch (fun _ => false) [⟨"A", ⟨1985, 1, 1⟩, 9, 9, 9⟩]
        [⟨"A", ⟨1985, 1, 1⟩, 1, 2, 3⟩] ⟨0, 0, 0, 0⟩ =
      .ok ([⟨"A", ⟨1985, 1, 1⟩, 1, 2, 3⟩], ⟨0, 0, 1, 0⟩) ∧
    (([⟨"A", ⟨1985, 1, 1⟩, 1, 2, 3⟩] : DB).filter
        fun x => x.station_id == "A" && x.date == ⟨1985, 1, 1⟩).length = 1) :=
  ⟨c3_uniqueness_invariant_and_duplicates.1 (fun _ => false) 1000
      (some [FileEntry.readable "A" ["19850101\t1\t2\t3".toList]]) [] ⟨0, 0, 0, 0⟩ (by decide),
   c3_uniqueness_invariant_and_duplicates.2 (fun _ => false)
      [⟨"A", ⟨1985, 1, 1⟩, 1, 2, 3⟩] ⟨0, 0, 0, 0⟩ ⟨"A", ⟨1985, 1, 1⟩, 1, 2, 3⟩
      ⟨"A", ⟨1985, 1, 1⟩, 9, 9, 9⟩ (by decide) (by decide) rfl rfl rfl⟩

/-- C8 — the only run-fatal condition: a run on a missing directory raises
before touching anything, a run on an existing directory always returns;
an unreadable file, an unparseable line, a persistence failure on a
mid-file flush and a persistence failure on a file's final flush are each
one counted error, and processing goes on with the next line or file. -/
theorem c8_run_fatal_iff_directory_missing :
    (∀ (oracle : FailOracle) (batchSize : Nat) (db : DB) (s : IngestStats),
        ingest_from_directory oracle batchSize none db s = .error (db, s)) ∧
    (∀ (oracle : FailOracle) (batchSize : Nat) (dir : Option (List FileEntry)) (db : DB)
        (s : IngestStats),
        (∃ e, ingest_from_directory oracle batchSize dir db s = .error e) ↔ dir = none) ∧
    (∀ (oracle : FailOracle) (batchSize : Nat) (acc : DB × IngestStats) (stem : String),
        processFile oracle batchSize acc (.unreadable stem) =
          (acc.1, { acc.2 with errors := acc.2.errors + 1 })) ∧
    (∀ (oracle : FailOracle) (batchSize : Nat) (sid : String) (acc : FileAcc)
        (rawLine : List Char) (e : ParseErr),
        pyStrip rawLine ≠ [] → parse_line (pyStrip rawLine) sid = .error e →
        ingestLine oracle batchSize sid acc rawLine =
          { acc with stats := { acc.stats with errors := acc.stats.errors + 1 } }) ∧
    (∀ (oracle : FailOracle) (batchSize : Nat) (sid : String) (acc : FileAcc)
        (rawLine : List Char) (record : WeatherData) (db2 : DB) (s2 : IngestStats),
        pyStrip rawLine ≠ [] → parse_line (pyStrip rawLine) sid = .ok record →
        batchSize ≤ (acc.batch ++ [record]).length →
        process_batch oracle (acc.batch ++ [record]) acc.db acc.stats = .error (db2, s2) →
        (ingestLine oracle batchSize sid acc rawLine).stats =
          { s2 with errors := s2.errors + 1 }) ∧
    (∀ (oracle : FailOracle) (batchSize : Nat) (acc : DB × IngestStats) (stem : String)
        (fileLines : List (List Char)) (db2 : DB) (s2 : IngestStats),
        ingest_file oracle batchSize stem fileLines acc.1 acc.2 = .error (db2, s2) →
        processFile oracle batchSize acc (.readable stem fileLines) =
          (db2, { s2 with errors := s2.errors + 1 })) := by
  refine ⟨fun _ _ _ _ => rfl, ?_, fun _ _ _ _ => rfl, ?_, ?_, ?_⟩
  · intro oracle batchSize dir db s
    cases dir with
    | none => exact ⟨fun _ => rfl, fun _ => ⟨(db, s), rfl⟩⟩
    | some files =>
      constructor
      · rintro ⟨e, he⟩
        rw [ingest_from_directory] at he
        cases he
      · intro h
        cases h
  · intro oracle batchSize sid acc rawLine e hne hp
    simp only [ingestLine, if_neg hne, hp]
  · intro oracle batchSize sid acc rawLine record db2 s2 hne hp hflush hpb
    simp only [ingestLine, if_neg hne, hp, if_pos hflush, hpb]
  · intro oracle batchSize acc stem fileLines db2 s2 hfile
    simp only [processFile, hfile]

theorem c8_witness :
    ingestLine (fun _ => false) 1000 "S" ⟨[], ⟨0, 0, 0, 0⟩, [], []⟩ "xx".toList =
      { (⟨[], ⟨0, 0, 0, 0⟩, [], []⟩ : FileAcc) with
        stats := { (⟨0, 0, 0, 0⟩ : IngestStats) with errors := 0 + 1 } } ∧
    (ingestLine (fun r => r.date == ⟨1986, 2, 2⟩) 1 "B"
        ⟨[⟨"B", ⟨1986, 2, 2⟩, 5, 5, 5⟩], ⟨0, 0, 0, 0⟩, [], []⟩
        "19860202\t1\t2\t3".toList).stats =
      { (⟨0, 0, 0, 0⟩ : IngestStats) with errors := (0 : Nat) + 1 } ∧
    processFile (fun r => r.date == ⟨1985, 1, 2⟩) 1000
        ([⟨"A", ⟨1985, 1, 2⟩, 5, 5, 5⟩], ⟨0, 0, 0, 0⟩)
        (.readable "A" ["19850102\t1\t2\t3".toList]) =
      ([⟨"A", ⟨1985, 1, 2⟩, 5, 5, 5⟩],
        { (⟨0, 0, 0, 0⟩ : IngestStats) with errors := (0 : Nat) + 1 }) :=
  ⟨c8_run_fatal_iff_directory_missing.2.2.2.1 (fun _ => false) 1000 "S"
      ⟨[], ⟨0, 0, 0, 0⟩, [], []⟩ "xx".toList (.fieldCount 1) (by decide) rfl,
   c8_run_fatal_iff_directory_missing.2.2.2.2.1 (fun r => r.date == ⟨1986, 2, 2⟩) 1 "B"
      ⟨[⟨"B", ⟨1986, 2, 2⟩, 5, 5, 5⟩], ⟨0, 0, 0, 0⟩, [], []⟩ "19860202\t1\t2\t3".toList
      ⟨"B", ⟨1986, 2, 2⟩, 1, 2, 3⟩ [⟨"B", ⟨1986, 2, 2⟩, 5, 5, 5⟩] ⟨0, 0, 0, 0⟩
      (by decide) (by decide) (by decide) (by decide),
   c8_run_fatal_iff_directory_missing.2.2.2.2.2 (fun r => r.date == ⟨1985, 1, 2⟩) 1000
      ([⟨"A", ⟨1985, 1, 2⟩, 5, 5, 5⟩], ⟨0, 0, 0, 0⟩) "A" ["19850102\t1\t2\t3".toList]
      [⟨"A", ⟨1985, 1, 2⟩, 5, 5, 5⟩] ⟨0, 0, 0, 0⟩ (by decide)⟩


/-- C1 — counterexample: with row ("A", 1985-01-01) already persisted, the
batch [duplicate of it, record the store fails on, fresh record] makes the
bulk insert hit the unique constraint; in the per-record retry the
duplicate is skipped, but the storage failure on the second record is not
caught: no error is counted by the Loader, the third record is never
attempted, and the exception propagates — refuting "counted as an error
while the Loader continues with the remaining records of that batch". -/
theorem c1_counterexample_other_failure_aborts_batch :
    process_batch (fun r => r.date == ⟨1985, 1, 2⟩)
        [⟨"A", ⟨1985, 1, 1⟩, 9, 9, 9⟩, ⟨"A", ⟨1985, 1, 2⟩, 1, 2, 3⟩,
         ⟨"A", ⟨1985, 1, 3⟩, 1, 2, 3⟩]
        [⟨"A", ⟨1985, 1, 1⟩, 1, 2, 3⟩] ⟨0, 0, 0, 0⟩ =
      .error ([⟨"A", ⟨1985, 1, 1⟩, 1, 2, 3⟩], ⟨0, 0, 1, 0⟩) ∧
    (⟨"A", ⟨1985, 1, 3⟩, 1, 2, 3⟩ : WeatherData) ∉
      (stateOf (process_batch (fun r => r.date == ⟨1985, 1, 2⟩)
        [⟨"A", ⟨1985, 1, 1⟩, 9, 9, 9⟩, ⟨"A", ⟨1985, 1, 2⟩, 1, 2, 3⟩,
         ⟨"A", ⟨1985, 1, 3⟩, 1, 2, 3⟩]
        [⟨"A", ⟨1985, 1, 1⟩, 1, 2, 3⟩] ⟨0, 0, 0, 0⟩)).1 ∧
    (stateOf (process_batch (fun r => r.date == ⟨1985, 1, 2⟩)
        [⟨"A", ⟨1985, 1, 1⟩, 9, 9, 9⟩, ⟨"A", ⟨1985, 1, 2⟩, 1, 2, 3⟩,
         ⟨"A", ⟨1985, 1, 3⟩, 1, 2, 3⟩]
        [⟨"A", ⟨1985, 1, 1⟩, 1, 2, 3⟩] ⟨0, 0, 0, 0⟩)).2.errors = 0 := by
  refine ⟨by decide, by decide, by decide⟩

/-- C1 amended — fallback classification: a bulk uniqueness conflict rolls
the batch back and retries it record by record; with a healthy store each
record is either ingested or skipped as a duplicate (duplicates against
the pre-batch table are never inserted); a non-uniqueness storage failure
on one record instead ends the retry there — earlier records keep their
classification, no error is counted by the Loader itself, the records
after the failing one are not attempted, and the file driver that catches
the exception counts a single error and retains the pending batch. -/
theorem c1_loader_fallback_amended :
    (∀ (oracle : FailOracle) (batch : List WeatherData) (db : DB) (s : IngestStats),
        bulkConflict db batch = true →
        process_batch oracle batch db s = process_individually oracle batch db s) ∧
    (∀ (oracle : FailOracle) (batch : List WeatherData) (db : DB) (s : IngestStats),
        (∀ r ∈ batch, oracle r = false) →
        ∃ new : List WeatherData,
          process_individually oracle batch db s =
            .ok (db ++ new,
              { s with records_ingested := s.records_ingested + new.length,
                       records_skipped := s.records_skipped + (batch.length - new.length) }) ∧
          new.Sublist batch ∧ (∀ r ∈ batch, hasKey db r = true → r ∉ new)) ∧
    (∀ (oracle : FailOracle) (pre : List WeatherData) (rbad : WeatherData)
        (post : List WeatherData) (db : DB) (s : IngestStats),
        (∀ r ∈ pre, oracle r = false) → oracle rbad = true →
        ∃ new : List WeatherData,
          process_individually oracle (pre ++ rbad :: post) db s =
            .error (db ++ new,
              { s with records_ingested := s.records_ingested + new.length,
                       records_skipped := s.records_skipped + (pre.length - new.length) }) ∧
          new.Sublist pre) ∧
    (∀ (oracle : FailOracle) (batchSize : Nat) (sid : String) (acc : FileAcc)
        (rawLine : List Char) (record : WeatherData) (db2 : DB) (s2 : IngestStats),
        pyStrip rawLine ≠ [] → parse_line (pyStrip rawLine) sid = .ok record →
        batchSize ≤ (acc.batch ++ [record]).length →
        process_batch oracle (acc.batch ++ [record]) acc.db acc.stats = .error (db2, s2) →
        ingestLine oracle batchSize sid acc rawLine =
          ⟨db2, { s2 with errors := s2.errors + 1 }, acc.batch ++ [record],
           acc.flushed ++ [acc.batch ++ [record]]⟩) := by
  refine ⟨process_batch_conflict, ?_, ?_, ?_⟩
  · intro oracle batch db s hor
    obtain ⟨new, h1, h2, h3, -⟩ := process_individually_ok oracle batch db s hor
    exact ⟨new, h1, h2, h3⟩
  · intro oracle pre rbad post db s hor hbad
    obtain ⟨new, h1, h2, -⟩ := process_individually_err oracle pre rbad post db s hor hbad
    exact ⟨new, h1, h2⟩
  · intro oracle batchSize sid acc rawLine record db2 s2 hne hp hflush hpb
    simp only [ingestLine, if_neg hne, hp, if_pos hflush, hpb]

theorem c1_witness :
    (process_batch (fun _ => false) [⟨"A", ⟨1985, 1, 1⟩, 9, 9, 9⟩]
        [⟨"A", ⟨1985, 1, 1⟩, 1, 2, 3⟩] ⟨0, 0, 0, 0⟩ =
      process_individually (fun _ => false) [⟨"A", ⟨1985, 1, 1⟩, 9, 9, 9⟩]
        [⟨"A", ⟨1985, 1, 1⟩, 1, 2, 3⟩] ⟨0, 0, 0, 0⟩) ∧
    (∃ new : List WeatherData,
      process_individually (fun _ => false)
          [⟨"A", ⟨1985, 1, 1⟩, 9, 9, 9⟩, ⟨"A", ⟨1985, 1, 3⟩, 1, 2, 3⟩]
          [⟨"A", ⟨1985, 1, 1⟩, 1, 2, 3⟩] ⟨0, 0, 0, 0⟩ =
        .ok ([⟨"A", ⟨1985, 1, 1⟩, 1, 2, 3⟩] ++ new,
          { (⟨0, 0, 0, 0⟩ : IngestStats) with
            records_ingested := (⟨0, 0, 0, 0⟩ : IngestStats).records_ingested + new.length,
            records_skipped := (⟨0, 0, 0, 0⟩ : IngestStats).records_skipped + (2 - new.length) }) ∧
      new.Sublist [⟨"A", ⟨1985, 1, 1⟩, 9, 9, 9⟩, ⟨"A", ⟨1985, 1, 3⟩, 1, 2, 3⟩] ∧
      (∀ r ∈ [⟨"A", ⟨1985, 1, 1⟩, 9, 9, 9⟩, (⟨"A", ⟨1985, 1, 3⟩, 1, 2, 3⟩ : WeatherData)],
        hasKey [⟨"A", ⟨1985, 1, 1⟩, 1, 2, 3⟩] r = true → r ∉ new)) ∧
    (∃ new : List WeatherData,
      process_individually (fun r => r.date == ⟨1985, 1, 2⟩)
          ([⟨"A", ⟨1985, 1, 1⟩, 9, 9, 9⟩] ++ ⟨"A", ⟨1985, 1, 2⟩, 1, 2, 3⟩ ::
            [⟨"A", ⟨1985, 1, 3⟩, 1, 2, 3⟩])
          [⟨"A", ⟨1985, 1, 1⟩, 1, 2, 3⟩] ⟨0, 0, 0, 0⟩ =
        .error ([⟨"A", ⟨1985, 1, 1⟩, 1, 2, 3⟩] ++ new,
          { (⟨0, 0, 0, 0⟩ : IngestStats) with
            records_ingested := (⟨0, 0, 0, 0⟩ : IngestStats).records_ingested + new.length,
            records_skipped := (⟨0, 0, 0, 0⟩ : IngestStats).records_skipped + (1 - new.length) }) ∧
      new.Sublist [⟨"A", ⟨1985, 1, 1⟩, 9, 9, 9⟩]) ∧
    (ingestLine (fun r => r.date == ⟨1985, 1, 2⟩) 1
        "A" ⟨[⟨"A", ⟨1985, 1, 2⟩, 5, 5, 5⟩], ⟨0, 0, 0, 0⟩, [], []⟩ "19850102\t1\t2\t3".toList =
      ⟨[⟨"A", ⟨1985, 1, 2⟩, 5, 5, 5⟩], ⟨0, 0, 0, 1⟩, [⟨"A", ⟨1985, 1, 2⟩, 1, 2, 3⟩],
       [[⟨"A", ⟨1985, 1, 2⟩, 1, 2, 3⟩]]⟩) :=
  ⟨c1_loader_fallback_amended.1 (fun _ => false) [⟨"A", ⟨1985, 1, 1⟩, 9, 9, 9⟩]
      [⟨"A", ⟨1985, 1, 1⟩, 1, 2, 3⟩] ⟨0, 0, 0, 0⟩ (by decide),
   c1_loader_fallback_amended.2.1 (fun _ => false)
      [⟨"A", ⟨1985, 1, 1⟩, 9, 9, 9⟩, ⟨"A", ⟨1985, 1, 3⟩, 1, 2, 3⟩]
      [⟨"A", ⟨1985, 1, 1⟩, 1, 2, 3⟩] ⟨0, 0, 0, 0⟩ (by decide),
   c1_loader_fallback_amended.2.2.1 (fun r => r.date == ⟨1985, 1, 2⟩)
      [⟨"A", ⟨1985, 1, 1⟩, 9, 9, 9⟩] ⟨"A", ⟨1985, 1, 2⟩, 1, 2, 3⟩
      [⟨"A", ⟨1985, 1, 3⟩, 1, 2, 3⟩] [⟨"A", ⟨1985, 1, 1⟩, 1, 2, 3⟩] ⟨0, 0, 0, 0⟩
      (by decide) (by decide),
   c1_loader_fallback_amended.2.2.2 (fun r => r.date == ⟨1985, 1, 2⟩) 1 "A"
      ⟨[⟨"A", ⟨1985, 1, 2⟩, 5, 5, 5⟩], ⟨0, 0, 0, 0⟩, [], []⟩ "19850102\t1\t2\t3".toList
      ⟨"A", ⟨1985, 1, 2⟩, 1, 2, 3⟩ [⟨"A", ⟨1985, 1, 2⟩, 5, 5, 5⟩] ⟨0, 0, 0, 0⟩
      (by decide) (by decide) (by decide) (by decide)⟩


/-- The records of a file that parse successfully, in file order (blank
lines skipped, failing lines dropped). -/
def parsedRecords (sid : String) (fileLines : List (List Char)) : List WeatherData :=
  fileLines.filterMap fun l =>
    if pyStrip l = [] then none else (parse_line (pyStrip l) sid).toOption

lemma process_batch_ok_total (oracle : FailOracle) (batch : List WeatherData) (db : DB)
    (s : IngestStats) (hor : ∀ r, oracle r = false) :
    ∃ out, process_batch oracle batch db s = .ok out := by
  by_cases hb : bulkConflict db batch = true
  · rw [process_batch_conflict oracle batch db s hb]
    obtain ⟨new, h1, -⟩ := process_individually_ok oracle batch db s (fun r _ => hor r)
    exact ⟨_, h1⟩
  · rw [Bool.not_eq_true] at hb
    exact ⟨_, process_batch_no_conflict oracle batch db s hb⟩

lemma ingest_loop_invariant (oracle : FailOracle) (batchSize : Nat) (sid : String)
    (hbs : 1 ≤ batchSize) (hor : ∀ r, oracle r = false) :
    ∀ (fileLines : List (List Char)) (acc : FileAcc),
      acc.batch.length < batchSize → (∀ b ∈ acc.flushed, b.length = batchSize) →
      ((fileLines.foldl (ingestLine oracle batchSize sid) acc).batch.length < batchSize ∧
       (fileLines.foldl (ingestLine oracle batchSize sid) acc).flushed.flatten ++
         (fileLines.foldl (ingestLine oracle batchSize sid) acc).batch =
         acc.flushed.flatten ++ acc.batch ++ parsedRecords sid fileLines ∧
       (∀ b ∈ (fileLines.foldl (ingestLine oracle batchSize sid) acc).flushed,
         b.length = batchSize)) := by
  intro fileLines
  induction fileLines with
  | nil => intro acc h1 h2; exact ⟨h1, by simp [parsedRecords], h2⟩
  | cons l rest ih =>
    intro acc h1 h2
    by_cases hb : pyStrip l = []
    · have hstep : ingestLine oracle batchSize sid acc l = acc := by
        rw [ingestLine, if_pos hb]
      have hpr : parsedRecords sid (l :: rest) = parsedRecords sid rest := by
        simp [parsedRecords, hb]
      rw [List.foldl_cons, hstep, hpr]
      exact ih acc h1 h2
    · cases hp : parse_line (pyStrip l) sid with
      | error e =>
        have hstep : ingestLine oracle batchSize sid acc l =
            { acc with stats := { acc.stats with errors := acc.stats.errors + 1 } } := by
          simp only [ingestLine, if_neg hb, hp]
        have hpr : parsedRecords sid (l :: rest) = parsedRecords sid rest := by
          simp [parsedRecords, hb, hp, Except.toOption]
        rw [List.foldl_cons, hstep, hpr]
        exact ih _ h1 h2
      | ok record =>
        have hpr : parsedRecords sid (l :: rest) = record :: parsedRecords sid rest := by
          simp [parsedRecords, hb, hp, Except.toOption]
        by_cases hflush : batchSize ≤ (acc.batch ++ [record]).length
        · obtain ⟨out, hout⟩ :=
            process_batch_ok_total oracle (acc.batch ++ [record]) acc.db acc.stats hor
          obtain ⟨db2, s2⟩ := out
          have hstep : ingestLine oracle batchSize sid acc l =
              ⟨db2, s2, [], acc.flushed ++ [acc.batch ++ [record]]⟩ := by
            simp only [ingestLine, if_neg hb, hp, if_pos hflush, hout]
          have hlen : (acc.batch ++ [record]).length = batchSize := by
            simp only [List.length_append, List.length_cons, List.length_nil] at hflush ⊢
            omega
          have h2b : ∀ b ∈ acc.flushed ++ [acc.batch ++ [record]], b.length = batchSize := by
            intro b hbm
            rcases List.mem_append.mp hbm with hbm | hbm
            · exact h2 b hbm
            · rw [List.mem_singleton] at hbm
              subst hbm
              exact hlen
          rw [List.foldl_cons, hstep, hpr]
          have hrec := ih ⟨db2, s2, [], acc.flushed ++ [acc.batch ++ [record]]⟩
            (by simpa using hbs) h2b
          refine ⟨hrec.1, ?_, hrec.2.2⟩
          rw [hrec.2.1]
          simp [List.flatten_append, List.append_assoc]
        · have hstep : ingestLine oracle batchSize sid acc l =
              { acc with batch := acc.batch ++ [record] } := by
            simp only [ingestLine, if_neg hb, hp, if_neg hflush]
          have hlt : (({ acc with batch := acc.batch ++ [record] } : FileAcc)).batch.length
              < batchSize := Nat.lt_of_not_le hflush
          rw [List.foldl_cons, hstep, hpr]
          have hrec := ih { acc with batch := acc.batch ++ [record] } hlt h2
          refine ⟨hrec.1, ?_, hrec.2.2⟩
          rw [hrec.2.1]
          simp [List.append_assoc]

lemma join_length_of_sizes :
    ∀ (L : List (List WeatherData)) (k : Nat), (∀ b ∈ L, b.length = k) →
      L.flatten.length = L.length * k := by
  intro L
  induction L with
  | nil => intro k _; simp
  | cons b rest ih =>
    intro k h
    simp only [List.flatten_cons, List.length_append, List.length_cons,
      h b (List.mem_cons_self b rest), ih k (fun x hx => h x (List.mem_cons_of_mem b hx))]
    ring

lemma chunk_count_boundary (n bs r : Nat) (hbs : 1 ≤ bs) (hr : r < bs)
    (heq : n * bs + r = bs + 1) :
    (n = 1 ∧ r = 1) ∨ (n = 2 ∧ r = 0 ∧ bs = 1) := by
  rcases n with _ | _ | _ | k
  · omega
  · omega
  · omega
  · have h3 : 3 * bs ≤ (k + 1 + 1 + 1) * bs := Nat.mul_le_mul_right bs (by omega)
    omega



/-- C7 — batching boundary: with the store healthy, a file's successfully
parsed records are flushed in batches of exactly the configured size plus
one final partial batch; every parsed record sits in exactly one flushed
batch, and a file with exactly batch size + 1 parseable records produces
exactly two batches — one full, one of a single record. -/
theorem c7_batching_boundary (oracle : FailOracle) (batchSize : Nat) (sid : String)
    (fileLines : List (List Char)) (db : DB) (s : IngestStats)
    (hbs : 1 ≤ batchSize) (hor : ∀ r, oracle r = false) :
    ∃ db2 s2 trace,
      ingest_file oracle batchSize sid fileLines db s = .ok (db2, s2, trace) ∧
      trace.flatten = parsedRecords sid fileLines ∧
      (∀ b ∈ trace.dropLast, b.length = batchSize) ∧
      (∀ b ∈ trace, b ≠ [] ∧ b.length ≤ batchSize) ∧
      ((parsedRecords sid fileLines).length = batchSize + 1 →
        trace = [(parsedRecords sid fileLines).take batchSize,
                 (parsedRecords sid fileLines).drop batchSize] ∧
        ((parsedRecords sid fileLines).take batchSize).length = batchSize ∧
        ((parsedRecords sid fileLines).drop batchSize).length = 1) := by
  obtain ⟨hlt, hjoin, hsizes⟩ := ingest_loop_invariant oracle batchSize sid hbs hor fileLines
    ⟨db, s, [], []⟩ (by simpa using hbs) (by simp)
  set acc2 := fileLines.foldl (ingestLine oracle batchSize sid) ⟨db, s, [], []⟩ with hacc2
  simp only [List.flatten_nil, List.nil_append] at hjoin
  rw [ingest_file]
  by_cases hempty : acc2.batch = []
  · rw [if_pos hempty]
    rw [hempty, List.append_nil] at hjoin
    refine ⟨acc2.db, acc2.stats, acc2.flushed, rfl, hjoin, ?_, ?_, ?_⟩
    · intro b hbm
      exact hsizes b ((List.dropLast_sublist _).subset hbm)
    · intro b hbm
      have hlb := hsizes b hbm
      refine ⟨?_, by omega⟩
      intro hnil
      rw [hnil] at hlb
      simp at hlb
      omega
    · intro hplen
      rw [← hjoin] at hplen
      rw [join_length_of_sizes acc2.flushed batchSize hsizes] at hplen
      have hcase := chunk_count_boundary acc2.flushed.length batchSize 0 hbs (by omega)
        (by omega)
      rcases hcase with ⟨-, h10⟩ | ⟨hn2, -, hbs1⟩
      · omega
      · obtain ⟨b1, b2, hfl⟩ := List.length_eq_two.mp hn2
        have hb1 : b1.length = batchSize := hsizes b1 (by rw [hfl]; simp)
        have hb2 : b2.length = batchSize := hsizes b2 (by rw [hfl]; simp)
        have hpar : b1 ++ b2 = parsedRecords sid fileLines := by
          rw [← hjoin, hfl]
          simp
        have htake : (parsedRecords sid fileLines).take batchSize = b1 := by
          rw [← hpar]
          exact List.take_left' hb1
        have hdrop : (parsedRecords sid fileLines).drop batchSize = b2 := by
          rw [← hpar]
          exact List.drop_left' hb1
        refine ⟨by rw [htake, hdrop, hfl], by rw [htake, hb1], by rw [hdrop, hb2, hbs1]⟩
  · rw [if_neg hempty]
    obtain ⟨out, hout⟩ := process_batch_ok_total oracle acc2.batch acc2.db acc2.stats hor
    obtain ⟨db2, s2⟩ := out
    rw [hout]
    refine ⟨db2, s2, acc2.flushed ++ [acc2.batch], rfl, ?_, ?_, ?_, ?_⟩
    · rw [List.flatten_append]
      simpa using hjoin
    · intro b hbm
      rw [List.dropLast_concat] at hbm
      exact hsizes b hbm
    · intro b hbm
      rcases List.mem_append.mp hbm with hbm | hbm
      · have hlb := hsizes b hbm
        refine ⟨?_, by omega⟩
        intro hnil
        rw [hnil] at hlb
        simp at hlb
        omega
      · rw [List.mem_singleton] at hbm
        subst hbm
        exact ⟨hempty, by omega⟩
    · intro hplen
      rw [← hjoin] at hplen
      rw [List.length_append, join_length_of_sizes acc2.flushed batchSize hsizes] at hplen
      have hrlt : acc2.batch.length < batchSize := hlt
      have hcase := chunk_count_boundary acc2.flushed.length batchSize acc2.batch.length hbs
        hrlt hplen
      rcases hcase with ⟨hn1, hr1⟩ | ⟨-, hr0, -⟩
      · obtain ⟨b1, hfl⟩ := List.length_eq_one.mp hn1
        have hb1 : b1.length = batchSize := hsizes b1 (by rw [hfl]; simp)
        have hpar : b1 ++ acc2.batch = parsedRecords sid fileLines := by
          rw [← hjoin, hfl]
          simp
        have htake : (parsedRecords sid fileLines).take batchSize = b1 := by
          rw [← hpar]
          exact List.take_left' hb1
        have hdrop : (parsedRecords sid fileLines).drop batchSize = acc2.batch := by
          rw [← hpar]
          exact List.drop_left' hb1
        refine ⟨by rw [htake, hdrop, hfl]; rfl, by rw [htake, hb1], by rw [hdrop, hr1]⟩
      · exact absurd (List.length_eq_zero.mp hr0) hempty

theorem c7_witness :
    ∃ db2 s2 trace,
      ingest_file (fun _ => false) 2 "A"
          ["19850101\t1\t2\t3".toList, "19850102\t1\t2\t3".toList, "19850103\t1\t2\t3".toList]
          [] ⟨0, 0, 0, 0⟩ = .ok (db2, s2, trace) ∧
      trace.flatten = parsedRecords "A"
        ["19850101\t1\t2\t3".toList, "19850102\t1\t2\t3".toList, "19850103\t1\t2\t3".toList] ∧
      (∀ b ∈ trace.dropLast, b.length = 2) ∧
      (∀ b ∈ trace, b ≠ [] ∧ b.length ≤ 2) ∧
      ((parsedRecords "A"
          ["19850101\t1\t2\t3".toList, "19850102\t1\t2\t3".toList,
           "19850103\t1\t2\t3".toList]).length = 2 + 1 →
        trace = [(parsedRecords "A"
            ["19850101\t1\t2\t3".toList, "19850102\t1\t2\t3".toList,
             "19850103\t1\t2\t3".toList]).take 2,
          (parsedRecords "A"
            ["19850101\t1\t2\t3".toList, "19850102\t1\t2\t3".toList,
             "19850103\t1\t2\t3".toList]).drop 2] ∧
        ((parsedRecords "A"
            ["19850101\t1\t2\t3".toList, "19850102\t1\t2\t3".toList,
             "19850103\t1\t2\t3".toList]).take 2).length = 2 ∧
        ((parsedRecords "A"
            ["19850101\t1\t2\t3".toList, "19850102\t1\t2\t3".toList,
             "19850103\t1\t2\t3".toList]).drop 2).length = 1) :=
  c7_batching_boundary (fun _ => false) 2 "A"
    ["19850101\t1\t2\t3".toList, "19850102\t1\t2\t3".toList, "19850103\t1\t2\t3".toList]
    [] ⟨0, 0, 0, 0⟩ (by decide) (fun _ => rfl)


/-- Spec-side mean of a list of rationals, absent when the list is empty. -/
def listMean (l : List ℚ) : Option ℚ := if l = [] then none else some (l.sum / l.length)

/-- Spec-side sum of a list of rationals, absent when the list is empty. -/
def listSumOpt (l : List ℚ) : Option ℚ := if l = [] then none else some l.sum

lemma computeStats_fst (db : DB) (sid : String) (year : Nat) :
    (computeStats db sid year).1 =
      (listMean (((db.filter fun r => r.station_id == sid && r.date.year == year).filter
        fun r => r.max_temp != sentinel).map fun r => (r.max_temp : ℚ))).map (· / 10) := by
  simp only [computeStats, listMean]
  by_cases h : ((db.filter fun r => r.station_id == sid && r.date.year == year).filter
      fun r => r.max_temp != sentinel) = []
  · rw [h]
    simp
  · rw [if_neg (by simpa using h), if_neg (by simpa using h)]
    simp only [Option.map_some, List.map_map, List.length_map]
    rfl

lemma computeStats_snd (db : DB) (sid : String) (year : Nat) :
    (computeStats db sid year).2.1 =
      (listMean (((db.filter fun r => r.station_id == sid && r.date.year == year).filter
        fun r => r.min_temp != sentinel).map fun r => (r.min_temp : ℚ))).map (· / 10) := by
  simp only [computeStats, listMean]
  by_cases h : ((db.filter fun r => r.station_id == sid && r.date.year == year).filter
      fun r => r.min_temp != sentinel) = []
  · rw [h]
    simp
  · rw [if_neg (by simpa using h), if_neg (by simpa using h)]
    simp only [Option.map_some, List.map_map, List.length_map]
    rfl

lemma computeStats_prec (db : DB) (sid : String) (year : Nat) :
    (computeStats db sid year).2.2 =
      (listSumOpt (((db.filter fun r => r.station_id == sid && r.date.year == year).filter
        fun r => r.precipitation != sentinel).map fun r => (r.precipitation : ℚ))).map
        (· / 100) := by
  simp only [computeStats, listSumOpt]
  by_cases h : ((db.filter fun r => r.station_id == sid && r.date.year == year).filter
      fun r => r.precipitation != sentinel) = []
  · rw [h]
    simp
  · rw [if_neg (by simpa using h), if_neg (by simpa using h)]
    simp only [Option.map_some, List.map_map]
    rfl

/-- C2 — aggregation formula with sentinel exclusion: on a fresh summary
table the upserted row's average max (resp. min) temperature is the mean
of the group's non-sentinel values divided by 10, its total precipitation
the sum of non-sentinel values divided by 100, each field null (never
zero) when every value is the sentinel; the group [100, 150, -9999]
yields average max temp 12.5. -/
theorem c2_aggregation_formula :
    (∀ (db : DB) (sid : String) (year now : Nat),
      calculate_station_year_stats db [] sid year now =
        [{ station_id := sid, year := year,
           avg_max_temp := (listMean
             (((db.filter fun r => r.station_id == sid && r.date.year == year).filter
                fun r => r.max_temp != sentinel).map fun r => (r.max_temp : ℚ))).map (· / 10),
           avg_min_temp := (listMean
             (((db.filter fun r => r.station_id == sid && r.date.year == year).filter
                fun r => r.min_temp != sentinel).map fun r => (r.min_temp : ℚ))).map (· / 10),
           total_precipitation := (listSumOpt
             (((db.filter fun r => r.station_id == sid && r.date.year == year).filter
                fun r => r.precipitation != sentinel).map fun r =>
                  (r.precipitation : ℚ))).map (· / 100),
           created_at := now, updated_at := now }]) ∧
    (∀ (db : DB) (sid : String) (year : Nat),
      (∀ r ∈ db.filter fun r => r.station_id == sid && r.date.year == year,
        r.max_temp = sentinel) →
      (computeStats db sid year).1 = none) ∧
    (computeStats
      [⟨"S", ⟨1985, 1, 1⟩, 100, 0, 0⟩, ⟨"S", ⟨1985, 1, 2⟩, 150, 0, 0⟩,
       ⟨"S", ⟨1985, 1, 3⟩, -9999, 0, 0⟩] "S" 1985).1 = some (25 / 2 : ℚ) := by
  refine ⟨?_, ?_, ?_⟩
  · intro db sid year now
    rw [calculate_station_year_stats, upsertStat, if_neg (by simp), List.nil_append]
    rw [computeStats_fst db sid year, computeStats_snd db sid year, computeStats_prec db sid year]
  · intro db sid year hall
    rw [computeStats_fst db sid year]
    have h : ((db.filter fun r => r.station_id == sid && r.date.year == year).filter
        fun r => r.max_temp != sentinel) = [] := by
      rw [List.filter_eq_nil_iff]
      intro r hr
      rw [hall r hr]
      simp
    rw [h]
    rfl
  · rw [computeStats_fst]
    have hfil : (([⟨"S", ⟨1985, 1, 1⟩, 100, 0, 0⟩, ⟨"S", ⟨1985, 1, 2⟩, 150, 0, 0⟩,
          ⟨"S", ⟨1985, 1, 3⟩, -9999, 0, 0⟩] : DB).filter
            (fun r => r.station_id == "S" && r.date.year == 1985)).filter
            (fun r => r.max_temp != sentinel) =
        [⟨"S", ⟨1985, 1, 1⟩, 100, 0, 0⟩, ⟨"S", ⟨1985, 1, 2⟩, 150, 0, 0⟩] := by decide
    rw [hfil]
    rw [listMean, if_neg (by simp)]
    simp only [List.map_cons, List.map_nil, List.sum_cons, List.sum_nil, List.length_cons,
      List.length_nil, Option.map_some]
    norm_num


lemma overwriteFirst_eq (sid : String) (year : Nat) (v : Option ℚ × Option ℚ × Option ℚ)
    (now : Nat) :
    ∀ T : List WeatherStats, T.any (statKeyMatch sid year) = true →
      ∃ r, T.get? (T.findIdx (statKeyMatch sid year)) = some r ∧
        statKeyMatch sid year r = true ∧
        overwriteFirst sid year v now T =
          T.set (T.findIdx (statKeyMatch sid year))
            { r with avg_max_temp := v.1, avg_min_temp := v.2.1,
                     total_precipitation := v.2.2, updated_at := now } := by
  intro T
  induction T with
  | nil => intro h; simp at h
  | cons a rest ih =>
    intro h
    by_cases ha : statKeyMatch sid year a = true
    · refine ⟨a, ?_, ha, ?_⟩
      · simp [List.findIdx_cons, ha]
      · rw [overwriteFirst, if_pos ha]
        simp [List.findIdx_cons, ha]
    · have hrest : rest.any (statKeyMatch sid year) = true := by
        simpa [List.any_cons, ha] using h
      obtain ⟨r, h1, h2, h3⟩ := ih hrest
      refine ⟨r, ?_, h2, ?_⟩
      · simpa [List.findIdx_cons, ha] using h1
      · rw [overwriteFirst, if_neg ha]
        simp only [List.findIdx_cons, ha, Bool.cond_eq_ite, if_false, ite_false]
        rw [h3]
        rfl

/-- C9 — upsert frame condition: when a summary row already exists for the
(station, year) key, the aggregation overwrites exactly the first
matching row's three derived fields and updated-at; the table keeps its
length (no new row), every other row is untouched, and the updated row
keeps its station identifier, year and creation timestamp. -/
theorem c9_upsert_frame (db : DB) (T : List WeatherStats) (sid : String) (year now : Nat)
    (hKey : T.any (statKeyMatch sid year) = true) :
    ∃ r, T.get? (T.findIdx (statKeyMatch sid year)) = some r ∧
      calculate_station_year_stats db T sid year now =
        T.set (T.findIdx (statKeyMatch sid year))
          { r with avg_max_temp := (computeStats db sid year).1,
                   avg_min_temp := (computeStats db sid year).2.1,
                   total_precipitation := (computeStats db sid year).2.2,
                   updated_at := now } ∧
      (calculate_station_year_stats db T sid year now).length = T.length ∧
      (∀ j, j ≠ T.findIdx (statKeyMatch sid year) →
        (calculate_station_year_stats db T sid year now).get? j = T.get? j) ∧
      ((calculate_station_year_stats db T sid year now).get?
          (T.findIdx (statKeyMatch sid year))).map
        (fun x => (x.station_id, x.year, x.created_at)) =
        some (r.station_id, r.year, r.created_at) := by
  obtain ⟨r, h1, h2, h3⟩ := overwriteFirst_eq sid year (computeStats db sid year) now T hKey
  have hcalc : calculate_station_year_stats db T sid year now =
      T.set (T.findIdx (statKeyMatch sid year))
        { r with avg_max_temp := (computeStats db sid year).1,
                 avg_min_temp := (computeStats db sid year).2.1,
                 total_precipitation := (computeStats db sid year).2.2,
                 updated_at := now } := by
    rw [calculate_station_year_stats, upsertStat, if_pos hKey]
    exact h3
  have hlt : T.findIdx (statKeyMatch sid year) < T.length := by
    rcases List.get?_eq_some.mp h1 with ⟨hlt, -⟩
    exact hlt
  refine ⟨r, h1, hcalc, ?_, ?_, ?_⟩
  · rw [hcalc, List.length_set]
  · intro j hj
    rw [hcalc]
    exact List.get?_set_ne _ T fun hh => hj hh.symm
  · rw [hcalc, List.get?_set_eq_of_lt _ hlt]
    rfl

/-- Sample summary row for exercising the upsert frame property. -/
def sampleStatRow : WeatherStats :=
  { station_id := "S", year := 1985, avg_max_temp := none, avg_min_temp := none,
    total_precipitation := none, created_at := 3, updated_at := 3 }

theorem c9_witness :
    ∃ r, ([sampleStatRow].get? ([sampleStatRow].findIdx (statKeyMatch "S" 1985))) = some r ∧
      calculate_station_year_stats [] [sampleStatRow] "S" 1985 9 =
        [sampleStatRow].set ([sampleStatRow].findIdx (statKeyMatch "S" 1985))
          { r with avg_max_temp := (computeStats [] "S" 1985).1,
                   avg_min_temp := (computeStats [] "S" 1985).2.1,
                   total_precipitation := (computeStats [] "S" 1985).2.2,
                   updated_at := 9 } ∧
      (calculate_station_year_stats [] [sampleStatRow] "S" 1985 9).length =
        [sampleStatRow].length ∧
      (∀ j, j ≠ [sampleStatRow].findIdx (statKeyMatch "S" 1985) →
        (calculate_station_year_stats [] [sampleStatRow] "S" 1985 9).get? j =
          [sampleStatRow].get? j) ∧
      ((calculate_station_year_stats [] [sampleStatRow] "S" 1985 9).get?
          ([sampleStatRow].findIdx (statKeyMatch "S" 1985))).map
        (fun x => (x.station_id, x.year, x.created_at)) =
        some (r.station_id, r.year, r.created_at) :=
  c9_upsert_frame [] [sampleStatRow] "S" 1985 9 (by decide)

theorem c2_witness :
    (computeStats [⟨"X", ⟨1985, 1, 1⟩, -9999, 0, 0⟩] "X" 1985).1 = none :=
  c2_aggregation_formula.2.1 [⟨"X", ⟨1985, 1, 1⟩, -9999, 0, 0⟩] "X" 1985 (by decide)


/-- The (station, year) keys of the summary table, in row order. -/
def statKeys (T : List WeatherStats) : List (String × Nat) :=
  T.map fun r => (r.station_id, r.year)

/-- Everything of a summary row except its last-updated timestamp. -/
def statCore (r : WeatherStats) : String × Nat × Option ℚ × Option ℚ × Option ℚ × Nat :=
  (r.station_id, r.year, r.avg_max_temp, r.avg_min_temp, r.total_precipitation, r.created_at)

/-- The first summary row for the key carries exactly the derived values
recomputed from the current daily table. -/
def established (db : DB) (T : List WeatherStats) (sid : String) (year : Nat) : Prop :=
  ∃ r, T.find? (statKeyMatch sid year) = some r ∧
    r.avg_max_temp = (computeStats db sid year).1 ∧
    r.avg_min_temp = (computeStats db sid year).2.1 ∧
    r.total_precipitation = (computeStats db sid year).2.2

lemma statKeyMatch_update (sid2 : String) (year2 : Nat) (r : WeatherStats)
    (v : Option ℚ × Option ℚ × Option ℚ) (now : Nat) :
    statKeyMatch sid2 year2
      { r with avg_max_temp := v.1, avg_min_temp := v.2.1, total_precipitation := v.2.2,
               updated_at := now } = statKeyMatch sid2 year2 r := rfl

lemma find?_append_stat (k : WeatherStats → Bool) (l2 : List WeatherStats) :
    ∀ T : List WeatherStats, (T ++ l2).find? k =
      match T.find? k with
      | some r => some r
      | none => l2.find? k := by
  intro T
  induction T with
  | nil => simp
  | cons a rest ih =>
    by_cases ha : k a = true
    · rw [List.cons_append, List.find?_cons_of_pos _ ha, List.find?_cons_of_pos _ ha]
    · rw [List.cons_append, List.find?_cons_of_neg _ (by simpa using ha),
        List.find?_cons_of_neg _ (by simpa using ha), ih]

lemma not_any_statKey (T : List WeatherStats) (sid : String) (year : Nat)
    (h : T.any (statKeyMatch sid year) = false) : (sid, year) ∉ statKeys T := by
  intro hmem
  simp only [statKeys, List.mem_map] at hmem
  obtain ⟨r, hr, hkey⟩ := hmem
  have : T.any (statKeyMatch sid year) = true := by
    rw [List.any_eq_true]
    refine ⟨r, hr, ?_⟩
    simp only [statKeyMatch, Bool.and_eq_true, beq_iff_eq]
    exact ⟨congrArg Prod.fst hkey, congrArg Prod.snd hkey⟩
  rw [this] at h
  exact absurd h (by decide)

lemma statKeys_overwriteFirst (sid : String) (year : Nat)
    (v : Option ℚ × Option ℚ × Option ℚ) (now : Nat) :
    ∀ T : List WeatherStats, statKeys (overwriteFirst sid year v now T) = statKeys T := by
  intro T
  induction T with
  | nil => rfl
  | cons a rest ih =>
    rw [overwriteFirst]
    by_cases ha : statKeyMatch sid year a = true
    · rw [if_pos ha]
      rfl
    · rw [if_neg ha]
      simp only [statKeys, List.map_cons] at ih ⊢
      rw [ih]

lemma statKeys_upsert_nodup (T : List WeatherStats) (sid : String) (year : Nat)
    (v : Option ℚ × Option ℚ × Option ℚ) (now : Nat) (h : (statKeys T).Nodup) :
    (statKeys (upsertStat T sid year v now)).Nodup := by
  rw [upsertStat]
  by_cases hany : T.any (statKeyMatch sid year) = true
  · rw [if_pos hany, statKeys_overwriteFirst]
    exact h
  · rw [if_neg hany]
    rw [Bool.not_eq_true] at hany
    have hnot := not_any_statKey T sid year hany
    simp only [statKeys, List.map_append, List.map_cons, List.map_nil]
    rw [List.nodup_append]
    refine ⟨h, List.nodup_singleton _, ?_⟩
    intro a ha hb
    simp only [List.mem_singleton] at hb
    subst hb
    exact hnot ha

lemma find?_overwriteFirst_self (sid : String) (year : Nat)
    (v : Option ℚ × Option ℚ × Option ℚ) (now : Nat) :
    ∀ T : List WeatherStats, T.any (statKeyMatch sid year) = true →
      ∃ r : WeatherStats, (overwriteFirst sid year v now T).find? (statKeyMatch sid year) =
        some { r with avg_max_temp := v.1, avg_min_temp := v.2.1,
                      total_precipitation := v.2.2, updated_at := now } := by
  intro T
  induction T with
  | nil => intro h; simp at h
  | cons a rest ih =>
    intro h
    by_cases ha : statKeyMatch sid year a = true
    · refine ⟨a, ?_⟩
      rw [overwriteFirst, if_pos ha]
      exact List.find?_cons_of_pos _ (by rw [statKeyMatch_update]; exact ha)
    · have hrest : rest.any (statKeyMatch sid year) = true := by
        simpa [List.any_cons, ha] using h
      obtain ⟨r, hr⟩ := ih hrest
      refine ⟨r, ?_⟩
      rw [overwriteFirst, if_neg ha, List.find?_cons_of_neg _ (by simpa using ha)]
      exact hr

lemma established_upsert (db : DB) (T : List WeatherStats) (sid : String) (year now : Nat) :
    established db (upsertStat T sid year (computeStats db sid year) now) sid year := by
  rw [upsertStat]
  by_cases hany : T.any (statKeyMatch sid year) = true
  · rw [if_pos hany]
    obtain ⟨r, hr⟩ := find?_overwriteFirst_self sid year (computeStats db sid year) now T hany
    refine ⟨_, hr, ?_, ?_, ?_⟩ <;> rfl
  · rw [if_neg hany]
    rw [Bool.not_eq_true] at hany
    refine ⟨{ station_id := sid, year := year,
              avg_max_temp := (computeStats db sid year).1,
              avg_min_temp := (computeStats db sid year).2.1,
              total_precipitation := (computeStats db sid year).2.2, created_at := now,
              updated_at := now }, ?_, rfl, rfl, rfl⟩
    rw [find?_append_stat]
    have hnone : T.find? (statKeyMatch sid year) = none := by
      rw [List.find?_eq_none]
      intro x hx hpx
      have : T.any (statKeyMatch sid year) = true := List.any_eq_true.mpr ⟨x, hx, hpx⟩
      rw [this] at hany
      exact absurd hany (by decide)
    rw [hnone]
    exact List.find?_cons_of_pos _ (by simp [statKeyMatch])

lemma find?_overwriteFirst_other (sid : String) (year : Nat)
    (v : Option ℚ × Option ℚ × Option ℚ) (now : Nat) (sid2 : String) (year2 : Nat)
    (hne : ¬(sid2 = sid ∧ year2 = year)) :
    ∀ T : List WeatherStats, (overwriteFirst sid year v now T).find? (statKeyMatch sid2 year2) =
      T.find? (statKeyMatch sid2 year2) := by
  intro T
  induction T with
  | nil => rfl
  | cons a rest ih =>
    rw [overwriteFirst]
    by_cases ha : statKeyMatch sid year a = true
    · rw [if_pos ha]
      have ha2 : statKeyMatch sid2 year2 a = false := by
        by_contra hcon
        rw [Bool.not_eq_false] at hcon
        simp only [statKeyMatch, Bool.and_eq_true, beq_iff_eq] at ha hcon
        exact hne ⟨hcon.1.symm.trans ha.1, hcon.2.symm.trans ha.2⟩
      rw [List.find?_cons_of_neg _ (by rw [statKeyMatch_update]; simpa using ha2),
        List.find?_cons_of_neg _ (by simpa using ha2)]
    · rw [if_neg ha]
      by_cases ha2 : statKeyMatch sid2 year2 a = true
      · rw [List.find?_cons_of_pos _ ha2, List.find?_cons_of_pos _ ha2]
      · rw [List.find?_cons_of_neg _ (by simpa using ha2),
          List.find?_cons_of_neg _ (by simpa using ha2), ih]

lemma find?_upsert_other (T : List WeatherStats) (sid : String) (year : Nat)
    (v : Option ℚ × Option ℚ × Option ℚ) (now : Nat) (sid2 : String) (year2 : Nat)
    (hne : ¬(sid2 = sid ∧ year2 = year)) :
    (upsertStat T sid year v now).find? (statKeyMatch sid2 year2) =
      T.find? (statKeyMatch sid2 year2) := by
  rw [upsertStat]
  by_cases hany : T.any (statKeyMatch sid year) = true
  · rw [if_pos hany]
    exact find?_overwriteFirst_other sid year v now sid2 year2 hne T
  · rw [if_neg hany, find?_append_stat]
    have hnew : statKeyMatch sid2 year2
        ({ station_id := sid, year := year, avg_max_temp := v.1, avg_min_temp := v.2.1,
           total_precipitation := v.2.2, created_at := now, updated_at := now } :
          WeatherStats) = false := by
      by_contra hcon
      rw [Bool.not_eq_false] at hcon
      simp only [statKeyMatch, Bool.and_eq_true, beq_iff_eq] at hcon
      exact hne ⟨hcon.1.symm, hcon.2.symm⟩
    cases hf : T.find? (statKeyMatch sid2 year2) with
    | some r => rfl
    | none =>
      rw [List.find?_cons_of_neg _ (by simpa using hnew)]
      rfl

lemma map_statCore_overwriteFirst (sid : String) (year : Nat)
    (v : Option ℚ × Option ℚ × Option ℚ) (now : Nat) :
    ∀ (T : List WeatherStats) (r : WeatherStats),
      T.find? (statKeyMatch sid year) = some r →
      r.avg_max_temp = v.1 → r.avg_min_temp = v.2.1 → r.total_precipitation = v.2.2 →
      (overwriteFirst sid year v now T).map statCore = T.map statCore := by
  intro T
  induction T with
  | nil => intro r hr; simp at hr
  | cons a rest ih =>
    intro r hr h1 h2 h3
    by_cases ha : statKeyMatch sid year a = true
    · rw [List.find?_cons_of_pos _ ha, Option.some_inj] at hr
      rw [overwriteFirst, if_pos ha]
      have hcore : statCore { a with avg_max_temp := v.1, avg_min_temp := v.2.1,
                                     total_precipitation := v.2.2, updated_at := now } =
          statCore a := by
        simp only [statCore]
        rw [hr, h1, h2, h3]
      simp only [List.map_cons, hcore]
    · rw [List.find?_cons_of_neg _ (by simpa using ha)] at hr
      rw [overwriteFirst, if_neg ha]
      simp only [List.map_cons]
      rw [ih r hr h1 h2 h3]


lemma established_calc_preserved (db : DB) (now : Nat) (q : String × Nat) (sid : String)
    (year : Nat) (T : List WeatherStats) (h : established db T sid year) :
    established db (calculate_station_year_stats db T q.1 q.2 now) sid year := by
  by_cases hq : sid = q.1 ∧ year = q.2
  · obtain ⟨h1, h2⟩ := hq
    rw [calculate_station_year_stats, ← h1, ← h2]
    exact established_upsert db T sid year now
  · obtain ⟨r, hf, e1, e2, e3⟩ := h
    refine ⟨r, ?_, e1, e2, e3⟩
    rw [calculate_station_year_stats, find?_upsert_other T q.1 q.2 _ now sid year hq]
    exact hf

lemma fold_preserves_established (db : DB) (now : Nat) :
    ∀ (pairs : List (String × Nat)) (T : List WeatherStats) (sid : String) (year : Nat),
      established db T sid year →
      established db (pairs.foldl (fun t p => calculate_station_year_stats db t p.1 p.2 now) T)
        sid year := by
  intro pairs
  induction pairs with
  | nil => intro T sid year h; exact h
  | cons q rest ih =>
    intro T sid year h
    rw [List.foldl_cons]
    exact ih _ sid year (established_calc_preserved db now q sid year T h)

lemma fold_establishes (db : DB) (now : Nat) :
    ∀ (pairs : List (String × Nat)) (T : List WeatherStats) (p : String × Nat), p ∈ pairs →
      established db (pairs.foldl (fun t q => calculate_station_year_stats db t q.1 q.2 now) T)
        p.1 p.2 := by
  intro pairs
  induction pairs with
  | nil => intro T p h; cases h
  | cons q rest ih =>
    intro T p hp
    rcases List.mem_cons.mp hp with hp | hp
    · subst hp
      rw [List.foldl_cons]
      exact fold_preserves_established db now rest _ p.1 p.2 (established_upsert db T p.1 p.2 now)
    · rw [List.foldl_cons]
      exact ih _ p hp

lemma map_core_upsert_of_established (db : DB) (T : List WeatherStats) (sid : String)
    (year now : Nat) (h : established db T sid year) :
    (calculate_station_year_stats db T sid year now).map statCore = T.map statCore := by
  obtain ⟨r, hf, e1, e2, e3⟩ := h
  have hany : T.any (statKeyMatch sid year) = true := by
    rw [List.any_eq_true]
    exact ⟨r, List.mem_of_find?_eq_some hf, List.find?_some hf⟩
  rw [calculate_station_year_stats, upsertStat, if_pos hany]
  exact map_statCore_overwriteFirst sid year (computeStats db sid year) now T r hf e1 e2 e3

lemma fold_core_eq (db : DB) (now : Nat) :
    ∀ (pairs : List (String × Nat)) (T : List WeatherStats),
      (∀ p ∈ pairs, established db T p.1 p.2) →
      (pairs.foldl (fun t q => calculate_station_year_stats db t q.1 q.2 now) T).map statCore =
        T.map statCore := by
  intro pairs
  induction pairs with
  | nil => intro T _; rfl
  | cons q rest ih =>
    intro T h
    rw [List.foldl_cons]
    have hq := h q (List.mem_cons_self q rest)
    have hrest : ∀ p ∈ rest,
        established db (calculate_station_year_stats db T q.1 q.2 now) p.1 p.2 := by
      intro p hp
      exact established_calc_preserved db now q p.1 p.2 T (h p (List.mem_cons_of_mem q hp))
    rw [ih _ hrest, map_core_upsert_of_established db T q.1 q.2 now hq]

lemma fold_keys_nodup (db : DB) (now : Nat) :
    ∀ (pairs : List (String × Nat)) (T : List WeatherStats), (statKeys T).Nodup →
      (statKeys (pairs.foldl (fun t q => calculate_station_year_stats db t q.1 q.2 now)
        T)).Nodup := by
  intro pairs
  induction pairs with
  | nil => intro T h; exact h
  | cons q rest ih =>
    intro T h
    rw [List.foldl_cons]
    exact ih _ (statKeys_upsert_nodup T q.1 q.2 (computeStats db q.1 q.2) now h)

/-- C6 — aggregator idempotence via upsert: running the whole-run
aggregation twice over an unchanged daily table leaves every summary row
identical except for its updated-timestamp (the second run overwrites
each (station, year) row in place with the same recomputed values, never
appending), and the (station, year) key stays unique. -/
theorem c6_aggregator_idempotent (db : DB) (T : List WeatherStats) (now1 now2 : Nat)
    (h : (statKeys T).Nodup) :
    (calculate_all_stats db (calculate_all_stats db T now1) now2).map statCore =
      (calculate_all_stats db T now1).map statCore ∧
    (statKeys (calculate_all_stats db T now1)).Nodup := by
  constructor
  · rw [calculate_all_stats, calculate_all_stats]
    apply fold_core_eq
    intro p hp
    exact fold_establishes db now1 (stationYears db) T p hp
  · rw [calculate_all_stats]
    exact fold_keys_nodup db now1 (stationYears db) T h

theorem c6_witness :
    (calculate_all_stats [⟨"S", ⟨1985, 1, 1⟩, 100, 50, 20⟩]
        (calculate_all_stats [⟨"S", ⟨1985, 1, 1⟩, 100, 50, 20⟩] [] 3) 9).map statCore =
      (calculate_all_stats [⟨"S", ⟨1985, 1, 1⟩, 100, 50, 20⟩] [] 3).map statCore ∧
    (statKeys (calculate_all_stats [⟨"S", ⟨1985, 1, 1⟩, 100, 50, 20⟩] [] 3)).Nodup :=
  c6_aggregator_idempotent [⟨"S", ⟨1985, 1, 1⟩, 100, 50, 20⟩] [] 3 9 (by decide)

end WeatherApp
